import Mathlib

/-!
A shallow embedding of the damascus AAT (Abstract API Tree) pipeline:
the data model (`src/aat/types.rs`, `src/spec.rs`), the structural
equality oracle (`src/aat/equality.rs`), the schema normalizer
(`src/aat/schema.rs`), the AAT builder (`src/aat/mod.rs`) and the
validator (`src/aat/validation.rs`), together with theorems about them.

Modelling conventions:
- Rust `f64` is modelled by `F64` (NaN, or an exact rational value);
  JSON numbers are modelled exactly with `Rat` instead of IEEE doubles.
- `serde_json::Value` is modelled by `Json`; object maps are association
  lists looked up by first match.
- Fallible Rust functions returning `anyhow::Result` are modelled with
  `Except String`, carrying the same message text the source formats.
- `FieldType` includes the `Stream` and `Tuple` constructors: the builder
  (`mod.rs`) constructs them and the validator (`validation.rs`) matches
  on them, which is the feature-complete variant the spec declares
  authoritative; the copy of `types.rs` under `src/` predates them.
-/

namespace Damascus

/-- Rust `f64` as it occurs in this program: NaN or an exact numeric value
(infinities and IEEE rounding do not arise from the JSON inputs involved). -/
inductive F64 where
  | nan : F64
  | val : Rat → F64
deriving DecidableEq

/-- Rust `f64 == f64` (IEEE): NaN is unequal to everything, itself included. -/
def F64.rawEq : F64 → F64 → Bool
  | .val a, .val b => a == b
  | _, _ => false

def F64.isNan : F64 → Bool
  | .nan => true
  | _ => false

/-- Rust `f64 > f64`: any comparison with NaN is false. -/
def F64.gt : F64 → F64 → Bool
  | .val a, .val b => b < a
  | _, _ => false

/-- Rust `f64 >= f64`: any comparison with NaN is false. -/
def F64.ge : F64 → F64 → Bool
  | .val a, .val b => b ≤ a
  | _, _ => false

/-- Rust `f64 <= f64`: any comparison with NaN is false. -/
def F64.le : F64 → F64 → Bool
  | .val a, .val b => a ≤ b
  | _, _ => false

/-- `serde_json::Number`: stored as an integer (i64/u64) or as a double. -/
inductive JNum where
  | int : Int → JNum
  | float : Rat → JNum
deriving DecidableEq

/-- `serde_json::Value`. -/
inductive Json where
  | null : Json
  | bool : Bool → Json
  | num : JNum → Json
  | str : String → Json
  | arr : List Json → Json
  | obj : List (String × Json) → Json

/-- `serde_json::Map::get`: first entry with the key. -/
def jsonGet : List (String × Json) → String → Option Json
  | [], _ => none
  | (k, v) :: rest, key => if k = key then some v else jsonGet rest key

def Json.as_str : Json → Option String
  | .str s => some s
  | _ => none

def Json.as_bool : Json → Option Bool
  | .bool b => some b
  | _ => none

def Json.as_array : Json → Option (List Json)
  | .arr xs => some xs
  | _ => none

def Json.as_object : Json → Option (List (String × Json))
  | .obj es => some es
  | _ => none

/-- `serde_json::Number::as_f64` (exact here, ignoring double rounding). -/
def Json.as_f64 : Json → Option F64
  | .num (.int i) => some (.val i)
  | .num (.float q) => some (.val q)
  | _ => none

/-- `Number::as_u64`: only for integer-stored numbers in u64 range. -/
def Json.as_u64 : Json → Option Nat
  | .num (.int i) => if 0 ≤ i ∧ i < 2 ^ 64 then some i.toNat else none
  | _ => none

/-- `Number::as_i64`: only for integer-stored numbers in i64 range. -/
def Json.as_i64 : Json → Option Int
  | .num (.int i) => if -(2 ^ 63) ≤ i ∧ i < 2 ^ 63 then some i else none
  | _ => none

mutual

/-- Structural size of a JSON value, used as fuel for schema walking. -/
def Json.size : Json → Nat
  | .null => 1
  | .bool _ => 1
  | .num _ => 1
  | .str _ => 1
  | .arr xs => 1 + Json.sizeList xs
  | .obj es => 1 + Json.sizeEntries es

def Json.sizeList : List Json → Nat
  | [] => 0
  | j :: rest => 1 + Json.size j + Json.sizeList rest

def Json.sizeEntries : List (String × Json) → Nat
  | [] => 0
  | (_, j) :: rest => 1 + Json.size j + Json.sizeEntries rest

end

/-- `schemars::Schema`: a JSON value that is a bool or an object. -/
abbrev Schema := Json

/-- `Schema::try_from(value)`: succeeds exactly on bool and object nodes. -/
def schemaTryFrom : Json → Option Schema
  | .bool b => some (.bool b)
  | .obj es => some (.obj es)
  | _ => none

/-- Lexicographic order on char lists; models Rust `str::cmp`
(UTF-8 byte order coincides with codepoint order). -/
def lexLt : List Char → List Char → Bool
  | [], [] => false
  | [], _ :: _ => true
  | _ :: _, [] => false
  | a :: as, b :: bs => if a < b then true else if b < a then false else lexLt as bs

def strLt (s t : String) : Bool := lexLt s.data t.data

/-- `a.cmp(b) != Ordering::Greater`, the "less or equal" of Rust's total order. -/
def strLe (s t : String) : Bool := !(strLt t s)

/-! ## AAT data model (`src/aat/types.rs`, feature-complete variant) -/

inductive StringFormat where
  | dateTime | date | time | uuid | email | uri | hostname | ipv4 | ipv6
deriving DecidableEq

inductive PrimitiveType where
  | bool : PrimitiveType
  | int : PrimitiveType
  | float : PrimitiveType
  | string : Option StringFormat → PrimitiveType
deriving DecidableEq

inductive LiteralType where
  | str : String → LiteralType
  | int : Int → LiteralType
  | float : F64 → LiteralType
  | bool : Bool → LiteralType
  | null : LiteralType
deriving DecidableEq

inductive FieldType where
  | primitive : PrimitiveType → FieldType
  | literal : LiteralType → FieldType
  | optional : FieldType → FieldType
  | list : FieldType → FieldType
  | map : FieldType → FieldType
  | stream : FieldType → FieldType
  | reference : String → FieldType
  | intersection : List FieldType → FieldType
  | tuple : List FieldType → FieldType
  | any : FieldType

structure Constraints where
  minimum : Option F64 := none
  maximum : Option F64 := none
  exclusive_minimum : Option F64 := none
  exclusive_maximum : Option F64 := none
  multiple_of : Option F64 := none
  min_length : Option Nat := none
  max_length : Option Nat := none
  pattern : Option String := none
  min_items : Option Nat := none
  max_items : Option Nat := none
  unique_items : Option Bool := none
deriving DecidableEq

structure Field where
  name : String
  type : FieldType
  constraints : Option Constraints

structure ObjectType where
  name : String
  fields : List Field

/-- Discriminator mapping: a `HashMap<String, String>` in the source, kept
as the association list collected from the (key-sorted) JSON object. -/
structure Discriminator where
  property_name : String
  mapping : Option (List (String × String))
deriving DecidableEq

inductive UnionTypeVariantMode where
  | object : ObjectType → UnionTypeVariantMode
  | literal : LiteralType → UnionTypeVariantMode

structure UnionTypeVariant where
  name : Option String
  mode : UnionTypeVariantMode

structure UnionType where
  name : String
  discriminator : Option Discriminator
  variants : List UnionTypeVariant

structure EnumVariant where
  value : LiteralType
  description : Option String
deriving DecidableEq

structure EnumType where
  name : String
  variants : List EnumVariant
deriving DecidableEq

inductive NamedType where
  | object : ObjectType → NamedType
  | union : UnionType → NamedType
  | enum : EnumType → NamedType

inductive HttpMethod where
  | get | post | put | delete | patch
deriving DecidableEq

inductive PathSegment where
  | literal : String → PathSegment
  | parameter : (name : String) → (type : FieldType) → PathSegment

inductive Upgrade where
  | ws
deriving DecidableEq

inductive HeaderValue where
  | literal : String → HeaderValue
  | parameter : (name : String) → (field_type : FieldType) → HeaderValue
  | pattern : (pattern : String) → (param_name : String) → (field_type : FieldType) → HeaderValue

structure Header where
  name : String
  value : HeaderValue

structure Endpoint where
  name : String
  method : HttpMethod
  path : List PathSegment
  query : Option FieldType
  body : Option FieldType
  response : FieldType
  upgrade : Option Upgrade
  headers : List Header

structure Service where
  name : String
  endpoints : List Endpoint
  headers : List Header

structure AAT where
  types : List NamedType
  services : List Service
  headers : List Header
  type_names : List String

/-! ## Structural equality oracle (`src/aat/equality.rs`) -/

def primitives_are_equal : PrimitiveType → PrimitiveType → Bool
  | .bool, .bool => true
  | .int, .int => true
  | .float, .float => true
  | .string a, .string b => a = b
  | _, _ => false

/-- Float literals compare with NaN-equals-NaN semantics; all others exactly. -/
def literals_are_equal : LiteralType → LiteralType → Bool
  | .str a, .str b => a = b
  | .int a, .int b => a = b
  | .float a, .float b => (a.isNan && b.isNan) || F64.rawEq a b
  | .bool a, .bool b => a = b
  | .null, .null => true
  | _, _ => false

mutual

def field_types_are_equal : FieldType → FieldType → Bool
  | .primitive a, .primitive b => primitives_are_equal a b
  | .literal a, .literal b => literals_are_equal a b
  | .optional a, .optional b => field_types_are_equal a b
  | .list a, .list b => field_types_are_equal a b
  | .map a, .map b => field_types_are_equal a b
  | .reference a, .reference b => a = b
  | .intersection as, .intersection bs =>
      as.length = bs.length && field_type_lists_are_equal as bs
  | .any, .any => true
  -- The source's final `_ => false` arm: it also covers Stream-vs-Stream
  -- and Tuple-vs-Tuple pairs, which have no positive case in equality.rs.
  | _, _ => false

/-- The source's `zip(..).all(..)` over two equal-length lists. -/
def field_type_lists_are_equal : List FieldType → List FieldType → Bool
  | [], _ => true
  | _ :: _, [] => true
  | a :: as, b :: bs => field_types_are_equal a b && field_type_lists_are_equal as bs

end

/-- Rust `Option<f64> ==`: raw IEEE equality on the payloads. -/
def optF64Eq : Option F64 → Option F64 → Bool
  | none, none => true
  | some a, some b => F64.rawEq a b
  | _, _ => false

def constraints_are_equal : Option Constraints → Option Constraints → Bool
  | none, none => true
  | some a, some b =>
      optF64Eq a.minimum b.minimum
        && optF64Eq a.maximum b.maximum
        && optF64Eq a.exclusive_minimum b.exclusive_minimum
        && optF64Eq a.exclusive_maximum b.exclusive_maximum
        && optF64Eq a.multiple_of b.multiple_of
        && a.min_length = b.min_length
        && a.max_length = b.max_length
        && a.pattern = b.pattern
        && a.min_items = b.min_items
        && a.max_items = b.max_items
        && a.unique_items = b.unique_items
  | _, _ => false

/-- The source's `zip(..).all(..)` over object fields. -/
def object_fields_are_equal : List Field → List Field → Bool
  | [], _ => true
  | _ :: _, [] => true
  | a :: as, b :: bs =>
      (a.name = b.name && field_types_are_equal a.type b.type
          && constraints_are_equal a.constraints b.constraints)
        && object_fields_are_equal as bs

def objects_are_equal (a b : ObjectType) : Bool :=
  a.fields.length = b.fields.length && object_fields_are_equal a.fields b.fields

def variant_modes_are_equal : UnionTypeVariantMode → UnionTypeVariantMode → Bool
  | .object a, .object b => objects_are_equal a b
  | .literal a, .literal b => literals_are_equal a b
  | _, _ => false

def union_variants_are_equal : List UnionTypeVariant → List UnionTypeVariant → Bool
  | [], _ => true
  | _ :: _, [] => true
  | a :: as, b :: bs =>
      (a.name = b.name && variant_modes_are_equal a.mode b.mode)
        && union_variants_are_equal as bs

def discriminators_are_equal : Option Discriminator → Option Discriminator → Bool
  | none, none => true
  | some a, some b =>
      a.property_name = b.property_name
        && match a.mapping, b.mapping with
           | none, none => true
           | some am, some bm => am = bm
           | _, _ => false
  | _, _ => false

def unions_are_equal (a b : UnionType) : Bool :=
  a.variants.length = b.variants.length
    && discriminators_are_equal a.discriminator b.discriminator
    && union_variants_are_equal a.variants b.variants

def enum_variants_are_equal : List EnumVariant → List EnumVariant → Bool
  | [], _ => true
  | _ :: _, [] => true
  | a :: as, b :: bs =>
      (literals_are_equal a.value b.value && a.description = b.description)
        && enum_variants_are_equal as bs

def enums_are_equal (a b : EnumType) : Bool :=
  a.variants.length = b.variants.length && enum_variants_are_equal a.variants b.variants

/-- `types_are_structurally_equal`: shape equality ignoring declared names. -/
def types_are_structurally_equal : NamedType → NamedType → Bool
  | .object a, .object b => objects_are_equal a b
  | .union a, .union b => unions_are_equal a b
  | .enum a, .enum b => enums_are_equal a b
  | _, _ => false

/-! ## Validator (`src/aat/validation.rs`) -/

def get_type_name : NamedType → String
  | .object o => o.name
  | .union u => u.name
  | .enum e => e.name

mutual

def validate_field_type_references : FieldType → List String → Except String Unit
  | .reference ref_name, valid =>
      if valid.contains ref_name then .ok ()
      else .error ("Reference to undefined type '" ++ ref_name ++ "'")
  | .optional inner, valid => validate_field_type_references inner valid
  | .list inner, valid => validate_field_type_references inner valid
  | .map inner, valid => validate_field_type_references inner valid
  | .stream inner, valid => validate_field_type_references inner valid
  | .intersection types, valid => validate_field_type_references_list types valid
  | .tuple types, valid => validate_field_type_references_list types valid
  | .primitive _, _ => .ok ()
  | .literal _, _ => .ok ()
  | .any, _ => .ok ()

def validate_field_type_references_list : List FieldType → List String → Except String Unit
  | [], _ => .ok ()
  | t :: ts, valid => do
      validate_field_type_references t valid
      validate_field_type_references_list ts valid

end

/-- The loop in `validate_path_parameter_is_stringifiable` over enum variants:
fails at the first variant whose value is not a string literal. -/
def check_enum_variants_are_strings
    (param_name endpoint_name type_name : String) :
    List EnumVariant → Except String Unit
  | [] => .ok ()
  | v :: rest =>
      match v.value with
      | .str _ => check_enum_variants_are_strings param_name endpoint_name type_name rest
      | _ =>
          .error ("Path parameter '" ++ param_name ++ "' in endpoint '" ++ endpoint_name
            ++ "' references enum '" ++ type_name
            ++ "' which has non-string variant. Only string enums are allowed in path parameters.")

def validate_path_parameter_is_stringifiable
    (field_type : FieldType) (endpoint_name param_name : String)
    (types : List NamedType) : Except String Unit :=
  match field_type with
  | .primitive (.string _) => .ok ()
  | .primitive .int => .ok ()
  | .primitive .float => .ok ()
  | .primitive .bool => .ok ()
  | .literal _ => .ok ()
  | .reference type_name =>
      match types.find? (fun t => get_type_name t = type_name) with
      | none =>
          .error ("Path parameter '" ++ param_name ++ "' in endpoint '" ++ endpoint_name
            ++ "' references undefined type '" ++ type_name ++ "'")
      | some named_type =>
          match named_type with
          | .enum enum_type =>
              check_enum_variants_are_strings param_name endpoint_name type_name enum_type.variants
          | .object _ =>
              .error ("Path parameter '" ++ param_name ++ "' in endpoint '" ++ endpoint_name
                ++ "' cannot be an object type '" ++ type_name
                ++ "'. Path parameters must be primitives or string enums.")
          | .union _ =>
              .error ("Path parameter '" ++ param_name ++ "' in endpoint '" ++ endpoint_name
                ++ "' cannot be a union type '" ++ type_name
                ++ "'. Path parameters must be primitives or string enums.")
  | .optional _ =>
      .error ("Path parameter '" ++ param_name ++ "' in endpoint '" ++ endpoint_name
        ++ "' cannot be optional. Path parameters are always required.")
  | .list _ =>
      .error ("Path parameter '" ++ param_name ++ "' in endpoint '" ++ endpoint_name
        ++ "' cannot be a list. Use query parameters for arrays.")
  | .map _ =>
      .error ("Path parameter '" ++ param_name ++ "' in endpoint '" ++ endpoint_name
        ++ "' cannot be a map. Path parameters must be primitives or string enums.")
  | .intersection _ =>
      .error ("Path parameter '" ++ param_name ++ "' in endpoint '" ++ endpoint_name
        ++ "' cannot be an intersection type. Path parameters must be primitives or string enums.")
  | .tuple _ =>
      .error ("Path parameter '" ++ param_name ++ "' in endpoint '" ++ endpoint_name
        ++ "' cannot be a tuple type. Path parameters must be primitives or string enums.")
  | .stream _ =>
      .error ("Path parameter '" ++ param_name ++ "' in endpoint '" ++ endpoint_name
        ++ "' cannot be a stream type. Path parameters must be primitives or string enums.")
  | .any =>
      .error ("Path parameter '" ++ param_name ++ "' in endpoint '" ++ endpoint_name
        ++ "' cannot be 'any' type. Path parameters must be primitives or string enums.")

/-- `Result::map_err` on the message. -/
def withErr (msg : String → String) : Except String Unit → Except String Unit
  | .ok () => .ok ()
  | .error e => .error (msg e)

/-- The per-endpoint loop over path segments in `validate_references`. -/
def validate_endpoint_path_segments
    (endpoint_name : String) (valid : List String) (types : List NamedType) :
    List PathSegment → Except String Unit
  | [] => .ok ()
  | .literal _ :: rest => validate_endpoint_path_segments endpoint_name valid types rest
  | .parameter name t :: rest => do
      withErr (fun e => "Invalid reference in path parameter '" ++ name ++ "' of endpoint '"
          ++ endpoint_name ++ "': " ++ e)
        (validate_field_type_references t valid)
      validate_path_parameter_is_stringifiable t endpoint_name name types
      validate_endpoint_path_segments endpoint_name valid types rest

def validate_endpoint (valid : List String) (types : List NamedType)
    (endpoint : Endpoint) : Except String Unit := do
  validate_endpoint_path_segments endpoint.name valid types endpoint.path
  match endpoint.query with
  | some query_type =>
      withErr (fun e => "Invalid reference in query of endpoint '" ++ endpoint.name ++ "': " ++ e)
        (validate_field_type_references query_type valid)
  | none => .ok ()
  match endpoint.body with
  | some body_type =>
      withErr (fun e => "Invalid reference in body of endpoint '" ++ endpoint.name ++ "': " ++ e)
        (validate_field_type_references body_type valid)
  | none => .ok ()
  withErr (fun e => "Invalid reference in response of endpoint '" ++ endpoint.name ++ "': " ++ e)
    (validate_field_type_references endpoint.response valid)

def validate_endpoints (valid : List String) (types : List NamedType) :
    List Endpoint → Except String Unit
  | [] => .ok ()
  | e :: rest => do
      validate_endpoint valid types e
      validate_endpoints valid types rest

def validate_services (valid : List String) (types : List NamedType) :
    List Service → Except String Unit
  | [] => .ok ()
  | s :: rest => do
      validate_endpoints valid types s.endpoints
      validate_services valid types rest

def validate_object_fields (mkMsg : String → String → String) :
    List Field → List String → Except String Unit
  | [], _ => .ok ()
  | field :: rest, valid => do
      withErr (mkMsg field.name) (validate_field_type_references field.type valid)
      validate_object_fields mkMsg rest valid

def validate_union_variants (union_name : String) (valid : List String) :
    List UnionTypeVariant → Except String Unit
  | [] => .ok ()
  | variant :: rest => do
      match variant.mode with
      | .object obj =>
          validate_object_fields
            (fun field_name e => "Invalid reference in field '" ++ field_name
              ++ "' of union variant '" ++ (variant.name.getD "unnamed")
              ++ "' in type '" ++ union_name ++ "': " ++ e)
            obj.fields valid
      | .literal _ => .ok ()
      validate_union_variants union_name valid rest

def validate_named_types (valid : List String) : List NamedType → Except String Unit
  | [] => .ok ()
  | named_type :: rest => do
      match named_type with
      | .object obj =>
          validate_object_fields
            (fun field_name e => "Invalid reference in field '" ++ field_name
              ++ "' of type '" ++ obj.name ++ "': " ++ e)
            obj.fields valid
      | .union union => validate_union_variants union.name valid union.variants
      | .enum _ => .ok ()
      validate_named_types valid rest

/-- `validate_references`: all references in services and in the types resolve,
and every path parameter is string-serializable. -/
def validate_references (services : List Service) (types : List NamedType) :
    Except String Unit := do
  let valid_type_names := types.map get_type_name
  validate_services valid_type_names types services
  validate_named_types valid_type_names types

/-! ## Spec-side data model (`src/spec.rs`) -/

inductive Method where
  | get | post | put | delete | patch
deriving DecidableEq

/-- `crate::spec::Type` (named `SpecType` here: `Type` is reserved in Lean). -/
inductive SpecType where
  | void : SpecType
  | schema : Schema → SpecType
  | stream : SpecType → SpecType
  | list : SpecType → SpecType
  | optional : SpecType → SpecType
  | tuple : List SpecType → SpecType
  | namedTuple : List (String × SpecType) → SpecType

/-- Spec-side path segments; `typed` models the source's `Type` variant. -/
inductive SpecPathSegment where
  | literal : String → SpecPathSegment
  | typed : (name : String) → (type : SpecType) → SpecPathSegment

inductive SpecHeaderValue where
  | literal : String → SpecHeaderValue
  | typed : (name : String) → (type : SpecType) → SpecHeaderValue
  | pattern : (pattern : String) → (name : String) → (type : SpecType) → SpecHeaderValue

/-- Spec-side `Endpoint`; header maps (`BTreeMap`) are kept as the key-sorted
association lists their iteration yields. -/
structure SpecEndpoint where
  name : String
  method : Method
  path : List SpecPathSegment
  query : Option SpecType
  body : Option SpecType
  response : SpecType
  upgrade : Option Upgrade
  headers : List (String × SpecHeaderValue)

structure SpecService where
  name : String
  endpoints : List SpecEndpoint
  headers : List (String × SpecHeaderValue)

structure Spec where
  name : String
  headers : List (String × SpecHeaderValue)
  services : List SpecService

/-- `validate_path_parameter_type`: only Schema-backed types may sit in a path. -/
def validate_path_parameter_type : SpecType → Except String Unit
  | .schema _ => .ok ()
  | .void => .error "Path parameter cannot be Void type"
  | .stream _ =>
      .error "Path parameter cannot be Stream type - streams are not supported in URL paths"
  | .list _ =>
      .error "Path parameter cannot be List type - use query parameters for arrays"
  | .optional _ =>
      .error "Path parameter cannot be Optional type - path parameters are always required"
  | .tuple _ =>
      .error "Path parameter cannot be Tuple type - use a structured type instead"
  | .namedTuple _ =>
      .error "Path parameter cannot be NamedTuple type - use a structured type instead"

/-! ## Schema normalizer (`src/aat/schema.rs`) -/

/-- Strips the literal prefix `p` from `s`, models `str::strip_prefix`. -/
def stripPre (s p : String) : Option String :=
  if p.data.isPrefixOf s.data then some (String.mk (s.data.drop p.data.length)) else none

/-- `extract_ref_name` (identical copies live in `schema.rs` and `mod.rs`). -/
def extract_ref_name (reference : String) : Except String String :=
  match stripPre reference "#/definitions/" with
  | some name => .ok name
  | none =>
      match stripPre reference "#/$defs/" with
      | some name => .ok name
      | none => .error ("Unsupported reference format: " ++ reference)

def string_format_from_str : String → Option StringFormat
  | "date-time" => some .dateTime
  | "date" => some .date
  | "time" => some .time
  | "uuid" => some .uuid
  | "email" => some .email
  | "uri" => some .uri
  | "hostname" => some .hostname
  | "ipv4" => some .ipv4
  | "ipv6" => some .ipv6
  | _ => none

def json_value_to_literal (value : Json) : Except String LiteralType :=
  match value with
  | .str s => .ok (.str s)
  | .num n =>
      match (Json.num n).as_i64 with
      | some i => .ok (.int i)
      | none =>
          match (Json.num n).as_f64 with
          | some f => .ok (.float f)
          | none => .error "Unsupported number type in enum"
  | .bool b => .ok (.bool b)
  | .null => .ok .null
  | _ => .error "Unsupported JSON value type in enum"

/-- Prints an f64 into an error message (exact text is immaterial here). -/
def f64Str : F64 → String
  | .nan => "NaN"
  | .val q => toString q

/-- `Constraints::validate`: logical consistency of one field's constraints. -/
def Constraints.validate (c : Constraints) : Except String Unit :=
  if (match c.minimum, c.maximum with
      | some min, some max => F64.gt min max
      | _, _ => false) then
    .error ("Invalid constraint: minimum (" ++ f64Str (c.minimum.getD .nan)
      ++ ") must be <= maximum (" ++ f64Str (c.maximum.getD .nan) ++ ")")
  else if (match c.exclusive_minimum, c.exclusive_maximum with
      | some min, some max => F64.ge min max
      | _, _ => false) then
    .error ("Invalid constraint: exclusive_minimum (" ++ f64Str (c.exclusive_minimum.getD .nan)
      ++ ") must be < exclusive_maximum (" ++ f64Str (c.exclusive_maximum.getD .nan) ++ ")")
  else if (match c.minimum, c.exclusive_maximum with
      | some min, some ex_max => F64.ge min ex_max
      | _, _ => false) then
    .error ("Invalid constraint: minimum (" ++ f64Str (c.minimum.getD .nan)
      ++ ") must be < exclusive_maximum (" ++ f64Str (c.exclusive_maximum.getD .nan) ++ ")")
  else if (match c.exclusive_minimum, c.maximum with
      | some ex_min, some max => F64.ge ex_min max
      | _, _ => false) then
    .error ("Invalid constraint: exclusive_minimum (" ++ f64Str (c.exclusive_minimum.getD .nan)
      ++ ") must be < maximum (" ++ f64Str (c.maximum.getD .nan) ++ ")")
  else if (match c.min_length, c.max_length with
      | some min_len, some max_len => decide (min_len > max_len)
      | _, _ => false) then
    .error ("Invalid constraint: minLength (" ++ toString (c.min_length.getD 0)
      ++ ") must be <= maxLength (" ++ toString (c.max_length.getD 0) ++ ")")
  else if (match c.min_items, c.max_items with
      | some min_items, some max_items => decide (min_items > max_items)
      | _, _ => false) then
    .error ("Invalid constraint: minItems (" ++ toString (c.min_items.getD 0)
      ++ ") must be <= maxItems (" ++ toString (c.max_items.getD 0) ++ ")")
  else if (match c.multiple_of with
      | some multiple => F64.le multiple (.val 0)
      | none => false) then
    .error ("Invalid constraint: multipleOf (" ++ f64Str (c.multiple_of.getD .nan)
      ++ ") must be > 0")
  else .ok ()

/-- The minimum / draft-4-or-6 exclusiveMinimum block of
`extract_constraints_from_object`. -/
def constraints_stage_min (obj : List (String × Json)) (st : Constraints × Bool) :
    Constraints × Bool :=
  match (jsonGet obj "exclusiveMinimum").bind Json.as_f64 with
  | some exclusive_min => ({ st.1 with exclusive_minimum := some exclusive_min }, true)
  | none =>
      match (jsonGet obj "minimum").bind Json.as_f64 with
      | some min =>
          if ((jsonGet obj "exclusiveMinimum").bind Json.as_bool).getD false then
            ({ st.1 with exclusive_minimum := some min }, true)
          else ({ st.1 with minimum := some min }, true)
      | none => st

/-- The maximum / exclusiveMaximum block. -/
def constraints_stage_max (obj : List (String × Json)) (st : Constraints × Bool) :
    Constraints × Bool :=
  match (jsonGet obj "exclusiveMaximum").bind Json.as_f64 with
  | some exclusive_max => ({ st.1 with exclusive_maximum := some exclusive_max }, true)
  | none =>
      match (jsonGet obj "maximum").bind Json.as_f64 with
      | some max =>
          if ((jsonGet obj "exclusiveMaximum").bind Json.as_bool).getD false then
            ({ st.1 with exclusive_maximum := some max }, true)
          else ({ st.1 with maximum := some max }, true)
      | none => st

def constraints_stage_multiple_of (obj : List (String × Json)) (st : Constraints × Bool) :
    Constraints × Bool :=
  match (jsonGet obj "multipleOf").bind Json.as_f64 with
  | some multiple => ({ st.1 with multiple_of := some multiple }, true)
  | none => st

def constraints_stage_min_length (obj : List (String × Json)) (st : Constraints × Bool) :
    Constraints × Bool :=
  match (jsonGet obj "minLength").bind Json.as_u64 with
  | some min_len => ({ st.1 with min_length := some min_len }, true)
  | none => st

def constraints_stage_max_length (obj : List (String × Json)) (st : Constraints × Bool) :
    Constraints × Bool :=
  match (jsonGet obj "maxLength").bind Json.as_u64 with
  | some max_len => ({ st.1 with max_length := some max_len }, true)
  | none => st

def constraints_stage_pattern (obj : List (String × Json)) (st : Constraints × Bool) :
    Constraints × Bool :=
  match (jsonGet obj "pattern").bind Json.as_str with
  | some p => ({ st.1 with pattern := some p }, true)
  | none => st

def constraints_stage_min_items (obj : List (String × Json)) (st : Constraints × Bool) :
    Constraints × Bool :=
  match (jsonGet obj "minItems").bind Json.as_u64 with
  | some min_items => ({ st.1 with min_items := some min_items }, true)
  | none => st

def constraints_stage_max_items (obj : List (String × Json)) (st : Constraints × Bool) :
    Constraints × Bool :=
  match (jsonGet obj "maxItems").bind Json.as_u64 with
  | some max_items => ({ st.1 with max_items := some max_items }, true)
  | none => st

def constraints_stage_unique (obj : List (String × Json)) (st : Constraints × Bool) :
    Constraints × Bool :=
  match (jsonGet obj "uniqueItems").bind Json.as_bool with
  | some unique => ({ st.1 with unique_items := some unique }, true)
  | none => st

/-- `extract_constraints_from_object`: reads draft-4 and draft-6+ constraint
keywords off a field's schema object (one sequential `if let` block per
keyword group, modelled as one stage function each) and validates the
result; the Bool tracks `has_any`. -/
def extract_constraints_from_object :
    Option (List (String × Json)) → Except String (Option Constraints)
  | none => .ok none
  | some obj =>
      let st :=
        constraints_stage_unique obj (constraints_stage_max_items obj
          (constraints_stage_min_items obj (constraints_stage_pattern obj
            (constraints_stage_max_length obj (constraints_stage_min_length obj
              (constraints_stage_multiple_of obj (constraints_stage_max obj
                (constraints_stage_min obj ({}, false)))))))))
      if st.2 then do
        st.1.validate
        .ok (some st.1)
      else
        .ok none

/-- `discriminator` extraction in `schema_to_union_type` (non-recursive part). -/
def extract_discriminator (schema_obj : List (String × Json)) : Option Discriminator :=
  match jsonGet schema_obj "discriminator" with
  | some (.obj disc_obj) =>
      match jsonGet disc_obj "propertyName" with
      | some (.str prop_name) =>
          let mapping :=
            ((jsonGet disc_obj "mapping").bind Json.as_object).map
              (fun map_obj => map_obj.filterMap
                (fun kv => (kv.2.as_str).map (fun s => (kv.1, s))))
          some { property_name := prop_name, mapping := mapping }
      | _ => none
  | _ => none

def schema_to_enum_variants : List Json → Except String (List EnumVariant)
  | [] => .ok []
  | value :: rest => do
      let literal ← json_value_to_literal value
      let rest' ← schema_to_enum_variants rest
      .ok ({ value := literal, description := none } :: rest')

/-- `schema_to_enum_type`. -/
def schema_to_enum_type (name : String) (enum_values : List Json) :
    Except String NamedType := do
  let variants ← schema_to_enum_variants enum_values
  .ok (.enum { name := name, variants := variants })

/-- The variant-name choice in `schema_to_union_type`: `title`, else the single
required property of an object variant, else a positional fallback. -/
def union_variant_name (variant_obj : List (String × Json)) (idx : Nat) : String :=
  match (jsonGet variant_obj "title").bind Json.as_str with
  | some title => title
  | none =>
      if ((jsonGet variant_obj "type").bind Json.as_str) = some "object" then
        match jsonGet variant_obj "required" with
        | some (.arr required) =>
            match required with
            | [r] =>
                match r.as_str with
                | some prop_name => prop_name
                | none => "Variant" ++ toString idx
            | _ => "Variant" ++ toString idx
        | _ => "Variant" ++ toString idx
      else "Variant" ++ toString idx

/-
The schema-walking functions recurse through values pulled out of JSON object
maps, so they are written against a fuel parameter (structural recursion on
the fuel); the `sizeOf` of the input plus one is always enough fuel, since
every recursive call moves to a structurally smaller JSON value. The public
wrappers below supply that fuel.
-/

mutual

/-- `schema_to_field_type` (fueled body). -/
def schema_to_field_type_go : Nat → Json → Except String FieldType
  | 0, _ => .error "out of fuel"
  | _ + 1, .bool true => .ok .any
  | _ + 1, .bool false => .error "Schema bool(false) cannot be converted to a field type"
  | fuel + 1, .obj entries => schema_object_to_field_type_go fuel entries
  | _ + 1, _ => .error "Schema must be an object or bool"

/-- `schema_object_to_field_type` (fueled body). -/
def schema_object_to_field_type_go : Nat → List (String × Json) → Except String FieldType
  | 0, _ => .error "out of fuel"
  | fuel + 1, obj =>
      match jsonGet obj "$ref" with
      | some (.str reference) => do
          let name ← extract_ref_name reference
          .ok (.reference name)
      | _ =>
          match jsonGet obj "allOf" with
          | some (.arr all_of) => do
              let types ← all_of_field_types_go fuel all_of
              .ok (.intersection types)
          | _ =>
              let is_nullable_v2 := ((jsonGet obj "nullable").bind Json.as_bool).getD false
              let instance_types : Option (List String) :=
                (jsonGet obj "type").bind (fun v =>
                  match v.as_str with
                  | some s => some [s]
                  | none =>
                      match v.as_array with
                      | some arr => some (arr.filterMap Json.as_str)
                      | none => none)
              let is_nullable_v3 :=
                (instance_types.map (fun types => types.contains "null")).getD false
              let is_nullable := is_nullable_v2 || is_nullable_v3
              let type_str : Option String :=
                instance_types.bind (fun types => types.find? (fun t => t ≠ "null"))
              -- Special case: the only declared type is "null".
              if (instance_types.map List.length).getD 0 = 1 && is_nullable_v3 then
                .ok (.literal .null)
              else
                match type_str, jsonGet obj "additionalProperties" with
                | some "object", some additional_props_value =>
                    -- Map type: the source returns here without Optional-wrapping.
                    match schemaTryFrom additional_props_value with
                    | none => .error "Invalid additionalProperties schema"
                    | some additional_props_schema =>
                        match additional_props_schema.as_bool with
                        | some true => .ok (.map .any)
                        | some false => .error "Map with no additional properties not supported"
                        | none => do
                            let value_type ← schema_to_field_type_go fuel additional_props_schema
                            .ok (.map value_type)
                | _, _ =>
                    match schema_base_type fuel obj type_str with
                    | .error e => .error e
                    | .ok base_type =>
                        if is_nullable then .ok (.optional base_type) else .ok base_type

/-- The `base_type` match of `schema_object_to_field_type` (the branch on the
primary `type` keyword value). -/
def schema_base_type : Nat → List (String × Json) → Option String → Except String FieldType
  | 0, _, _ => .error "out of fuel"
  | fuel + 1, obj, type_str =>
      match type_str with
      | some "null" => .ok (FieldType.literal .null)
      | some "boolean" => .ok (FieldType.primitive .bool)
      | some "integer" => .ok (FieldType.primitive .int)
      | some "number" => .ok (FieldType.primitive .float)
      | some "string" =>
          let format :=
            ((jsonGet obj "format").bind Json.as_str).bind string_format_from_str
          .ok (FieldType.primitive (.string format))
      | some "array" =>
          match jsonGet obj "items" with
          | some items_value =>
              match schemaTryFrom items_value with
              | none => .error "Invalid items schema"
              | some items_schema => do
                  let item_type ← schema_to_field_type_go fuel items_schema
                  .ok (FieldType.list item_type)
          | none => .ok (FieldType.list .any)
      | some "object" => .ok FieldType.any
      | none => .ok FieldType.any
      | some other => .error ("Unsupported type: " ++ other)

/-- The `allOf` member loop of `schema_object_to_field_type`. -/
def all_of_field_types_go : Nat → List Json → Except String (List FieldType)
  | 0, _ => .error "out of fuel"
  | _ + 1, [] => .ok []
  | fuel + 1, v :: rest =>
      match schemaTryFrom v with
      | none => .error "Invalid schema in allOf"
      | some schema => do
          let t ← schema_to_field_type_go fuel schema
          let ts ← all_of_field_types_go fuel rest
          .ok (t :: ts)

/-- The `properties` loop of `schema_to_object_type`. -/
def object_fields_go : Nat → List (String × Json) → List String → Except String (List Field)
  | 0, _, _ => .error "out of fuel"
  | _ + 1, [], _ => .ok []
  | fuel + 1, (field_name, field_value) :: rest, required_set =>
      let is_required := required_set.contains field_name
      match schemaTryFrom field_value with
      | none => .error "Invalid field schema"
      | some field_schema => do
          let field_type ← schema_to_field_type_go fuel field_schema
          let field_type := if is_required then field_type else .optional field_type
          let constraints ← extract_constraints_from_object field_value.as_object
          let rest' ← object_fields_go fuel rest required_set
          .ok ({ name := field_name, type := field_type, constraints := constraints } :: rest')

/-- `schema_to_object_type` (fueled body). -/
def schema_to_object_type_go : Nat → String → List (String × Json) → Except String NamedType
  | 0, _, _ => .error "out of fuel"
  | fuel + 1, name, schema_obj => do
      let fields ←
        match jsonGet schema_obj "properties" with
        | some (.obj properties) =>
            let required_set :=
              (((jsonGet schema_obj "required").bind Json.as_array).map
                (fun arr => arr.filterMap Json.as_str)).getD []
            object_fields_go fuel properties required_set
        | _ => .ok []
      .ok (.object { name := name, fields := fields })

/-- The `oneOf` member loop of `schema_to_union_type` (with running index). -/
def union_variants_go : Nat → List Json → Nat → Except String (List UnionTypeVariant)
  | 0, _, _ => .error "out of fuel"
  | _ + 1, [], _ => .ok []
  | fuel + 1, variant_value :: rest, idx =>
      match schemaTryFrom variant_value with
      | none => .error "Invalid schema in oneOf"
      | some variant_schema =>
          match variant_schema with
          | .obj variant_obj =>
              let variant_name := union_variant_name variant_obj idx
              match jsonGet variant_obj "enum" with
              | some (.arr [single]) => do
                  let literal ← json_value_to_literal single
                  let rest' ← union_variants_go fuel rest (idx + 1)
                  .ok ({ name := some variant_name, mode := .literal literal } :: rest')
              | _ => do
                  let object_type ← schema_to_object_type_go fuel variant_name variant_obj
                  match object_type with
                  | .object o => do
                      let rest' ← union_variants_go fuel rest (idx + 1)
                      .ok ({ name := some variant_name, mode := .object o } :: rest')
                  | _ => .error "Expected object type in union variant"
          | .bool _ => .error "Boolean schemas not supported in unions"
          | _ => .error "Invalid schema in oneOf"

/-- `schema_to_type` (fueled body): enum, else union, else object. -/
def schema_to_type_go : Nat → Json → String → Except String NamedType
  | 0, _, _ => .error "out of fuel"
  | fuel + 1, schema, name =>
      match schema with
      | .bool true => .error "Schema bool(true) (any type) cannot be converted to a named type"
      | .bool false => .error "Schema bool(false) (no type) cannot be converted to a named type"
      | .obj obj =>
          match jsonGet obj "enum" with
          | some (.arr enum_values) => schema_to_enum_type name enum_values
          | _ =>
              match jsonGet obj "oneOf" with
              | some (.arr one_of) => do
                  let discriminator := extract_discriminator obj
                  let variants ← union_variants_go fuel one_of 0
                  .ok (.union { name := name, discriminator := discriminator,
                                variants := variants })
              | _ => schema_to_object_type_go fuel name obj
      | _ => .error "Schema must be an object or bool"

end

def schema_to_field_type (schema : Schema) : Except String FieldType :=
  schema_to_field_type_go (Json.size schema + 1) schema

def schema_object_to_field_type (obj : List (String × Json)) : Except String FieldType :=
  schema_object_to_field_type_go (Json.sizeEntries obj + 1 + 1) obj

def schema_to_type (schema : Schema) (name : String) : Except String NamedType :=
  schema_to_type_go (Json.size schema + 1) schema name

/-! ## AAT builder (`src/aat/mod.rs`) -/

def AAT.new : AAT :=
  { types := [], services := [], headers := [], type_names := [] }

/-- `add_type_with_dedup_check`: reject same-named, structurally different
types; accept a structurally equal re-registration as a no-op. -/
def add_type_with_dedup_check (aat : AAT) (new_type : NamedType) : Except String AAT :=
  let type_name := get_type_name new_type
  match aat.types.find? (fun t => get_type_name t = type_name) with
  | some existing_type =>
      if !types_are_structurally_equal existing_type new_type then
        .error ("Type name collision: a type named '" ++ type_name
          ++ "' already exists with a different structure")
      else
        .ok aat
  | none =>
      .ok { aat with
              types := aat.types ++ [new_type],
              type_names := aat.type_names ++ [type_name] }

def anon_candidate (counter : Nat) : String := "AnonymousType" ++ toString counter

/-- The `AnonymousType{N}` loop of `extract_schema_name`: the smallest counter
from 1 up whose candidate is not a used type name. The loop always terminates
because only finitely many names are taken; the fallback arm is unreachable. -/
def first_free_anon (type_names : List String) : String :=
  match (List.range (type_names.length + 1)).find?
      (fun k => !type_names.contains (anon_candidate (k + 1))) with
  | some k => anon_candidate (k + 1)
  | none => anon_candidate (type_names.length + 1)

/-- `extract_schema_name`: `title`, else a parsable self-`$ref`, else a fresh
`AnonymousType{N}`. -/
def extract_schema_name (aat : AAT) (schema : Schema) : Except String String :=
  match schema.as_object with
  | none => .error "Schema must be an object to extract name"
  | some obj =>
      match (jsonGet obj "title").bind Json.as_str with
      | some title => .ok title
      | none =>
          match (jsonGet obj "$ref").bind Json.as_str with
          | some ref_str =>
              match extract_ref_name ref_str with
              | .ok name => .ok name
              | .error _ => .ok (first_free_anon aat.type_names)
          | none => .ok (first_free_anon aat.type_names)

/-- The `$defs`/`definitions` loop of `append_types_from_schema`; entries that
are not valid schemas are silently skipped (`if let Ok(..)`). -/
def append_defs (aat : AAT) : List (String × Json) → Except String AAT
  | [] => .ok aat
  | (name, def_value) :: rest =>
      match schemaTryFrom def_value with
      | some def_schema => do
          let def_type ← schema_to_type def_schema name
          let aat' ← add_type_with_dedup_check aat def_type
          append_defs aat' rest
      | none => append_defs aat rest

/-- `append_types_from_schema`: register the root schema under `root_name`,
then every entry of its `$defs` (or legacy `definitions`) map. -/
def append_types_from_schema (aat : AAT) (schema : Schema) (root_name : String) :
    Except String AAT := do
  let root_type ← schema_to_type schema root_name
  let aat ← add_type_with_dedup_check aat root_type
  match schema.as_object with
  | some obj =>
      match (match jsonGet obj "$defs" with
             | some v => some v
             | none => jsonGet obj "definitions") with
      | some (.obj defs) => append_defs aat defs
      | _ => .ok aat
  | none => .ok aat

/-- `add_schema_and_get_name`. -/
def add_schema_and_get_name (aat : AAT) (schema : Schema) :
    Except String (AAT × String) := do
  let name ← extract_schema_name aat schema
  let aat2 ← append_types_from_schema aat schema name
  .ok (aat2, name)

/-- `should_inline_schema`: primitives/arrays/maps inline; objects, unions and
enums become named types. -/
def should_inline_schema (schema : Schema) : Bool :=
  match schema.as_object with
  | some obj =>
      if (jsonGet obj "properties").isSome then false
      else if (jsonGet obj "oneOf").isSome || (jsonGet obj "anyOf").isSome then false
      else if (jsonGet obj "enum").isSome then false
      else true
  | none => true

mutual

/-- `spec_type_to_field_type`: normalize a spec-side `Type`, threading the
AAT state (`&mut self` in the source). -/
def spec_type_to_field_type : AAT → SpecType → Except String (AAT × FieldType)
  | aat, .void => .ok (aat, .any)
  | aat, .schema schema =>
      if should_inline_schema schema then do
        let ft ← schema_to_field_type schema
        .ok (aat, ft)
      else do
        let r ← add_schema_and_get_name aat schema
        .ok (r.1, .reference r.2)
  | aat, .list inner => do
      let r ← spec_type_to_field_type aat inner
      .ok (r.1, .list r.2)
  | aat, .optional inner => do
      let r ← spec_type_to_field_type aat inner
      .ok (r.1, .optional r.2)
  | aat, .stream inner => do
      let r ← spec_type_to_field_type aat inner
      .ok (r.1, .stream r.2)
  | aat, .tuple types => do
      let r ← spec_tuple_field_types aat types
      .ok (r.1, .tuple r.2)
  | _, .namedTuple _ =>
      .error "NamedTuple types are not yet fully supported in AAT conversion. Consider using a named struct type instead."

/-- The member loop of the `Tuple` arm. -/
def spec_tuple_field_types : AAT → List SpecType → Except String (AAT × List FieldType)
  | aat, [] => .ok (aat, [])
  | aat, t :: rest => do
      let r ← spec_type_to_field_type aat t
      let r2 ← spec_tuple_field_types r.1 rest
      .ok (r2.1, r.2 :: r2.2)

end

/-- `spec_header_value_to_aat`. -/
def spec_header_value_to_aat (aat : AAT) (name : String)
    (header_value : SpecHeaderValue) : Except String (AAT × Header) :=
  match header_value with
  | .literal lit => .ok (aat, { name := name, value := .literal lit })
  | .typed param_name t => do
      let r ← spec_type_to_field_type aat t
      .ok (r.1, { name := name, value := .parameter param_name r.2 })
  | .pattern pat param_name t => do
      let r ← spec_type_to_field_type aat t
      .ok (r.1, { name := name, value := .pattern pat param_name r.2 })

/-- A header-map loop (`for (name, header_value) in ...headers()`). -/
def convert_headers (aat : AAT) :
    List (String × SpecHeaderValue) → Except String (AAT × List Header)
  | [] => .ok (aat, [])
  | (name, header_value) :: rest => do
      let r ← spec_header_value_to_aat aat name header_value
      let r2 ← convert_headers r.1 rest
      .ok (r2.1, r.2 :: r2.2)

/-- The path-segment loop of `import_from_spec`: a typed segment must pass
`validate_path_parameter_type` before being normalized. -/
def convert_path (aat : AAT) :
    List SpecPathSegment → Except String (AAT × List PathSegment)
  | [] => .ok (aat, [])
  | .literal lit :: rest => do
      let r ← convert_path aat rest
      .ok (r.1, .literal lit :: r.2)
  | .typed name t :: rest => do
      validate_path_parameter_type t
      let r ← spec_type_to_field_type aat t
      let r2 ← convert_path r.1 rest
      .ok (r2.1, .parameter name r.2 :: r2.2)

def convert_method : Method → HttpMethod
  | .get => .get
  | .post => .post
  | .put => .put
  | .delete => .delete
  | .patch => .patch

/-- The `if let Some(t) = ... { Some(conv(t)?) } else { None }` pattern used
for an endpoint's optional query and body types. -/
def convert_opt_type (aat : AAT) : Option SpecType → Except String (AAT × Option FieldType)
  | some t => do
      let r ← spec_type_to_field_type aat t
      .ok (r.1, some r.2)
  | none => .ok (aat, none)

/-- The endpoint loop of `import_from_spec`. -/
def convert_endpoints (aat : AAT) :
    List SpecEndpoint → Except String (AAT × List Endpoint)
  | [] => .ok (aat, [])
  | e :: rest => do
      let rp ← convert_path aat e.path
      let rq ← convert_opt_type rp.1 e.query
      let rb ← convert_opt_type rq.1 e.body
      let rr ← spec_type_to_field_type rb.1 e.response
      let method := convert_method e.method
      let rh ← convert_headers rr.1 e.headers
      let upgrade := e.upgrade.map (fun u => match u with | .ws => Upgrade.ws)
      let aat_endpoint : Endpoint :=
        { name := e.name, method := method, path := rp.2,
          query := rq.2, body := rb.2,
          response := rr.2, upgrade := upgrade,
          headers := rh.2 }
      let re ← convert_endpoints rh.1 rest
      .ok (re.1, aat_endpoint :: re.2)

/-- The service loop of `import_from_spec`. -/
def convert_services (aat : AAT) :
    List SpecService → Except String (AAT × List Service)
  | [] => .ok (aat, [])
  | s :: rest => do
      let rh ← convert_headers aat s.headers
      let re ← convert_endpoints rh.1 s.endpoints
      let aat_service : Service :=
        { name := s.name, endpoints := re.2, headers := rh.2 }
      let rs ← convert_services re.1 rest
      .ok (rs.1, aat_service :: rs.2)

/-- `import_from_spec`: headers, then services (each service: headers then
endpoints), every embedded type routed through the normalizer and registry. -/
def import_from_spec (aat : AAT) (spec : Spec) : Except String AAT := do
  let rh ← convert_headers aat spec.headers
  let aat1 := { rh.1 with headers := rh.1.headers ++ rh.2 }
  let rs ← convert_services aat1 spec.services
  .ok { rs.1 with services := rs.1.services ++ rs.2 }

/-- `AAT::sort`: types by name, services by name, each service's endpoints by
name. Rust's stable `sort_by` is modelled by insertion sort, which computes
the same list for a total preorder. -/
def AAT.sort (aat : AAT) : AAT :=
  { aat with
      types :=
        List.insertionSort (fun a b => strLe (get_type_name a) (get_type_name b) = true)
          aat.types,
      services :=
        (List.insertionSort (fun a b : Service => strLe a.name b.name = true)
            aat.services).map
          (fun s => { s with
            endpoints :=
              List.insertionSort (fun a b : Endpoint => strLe a.name b.name = true)
                s.endpoints }) }

/-- `AAT::from_spec`: import, then the deterministic sort pass. -/
def AAT.from_spec (spec : Spec) : Except String AAT := do
  let aat ← import_from_spec AAT.new spec
  .ok aat.sort

/-- `AAT::validate`. -/
def AAT.validate (aat : AAT) : Except String Unit :=
  validate_references aat.services aat.types

/-! ## Basic lemmas -/

theorem as_str_str (v : String) : Json.as_str (.str v) = some v := rfl

theorem as_str_arr (xs : List Json) : Json.as_str (.arr xs) = none := rfl

theorem as_array_arr (xs : List Json) : Json.as_array (.arr xs) = some xs := rfl

theorem as_array_str (v : String) : Json.as_array (.str v) = none := rfl

theorem exbind_ok {α β : Type} (a : α) (f : α → Except String β) :
    (Except.ok a : Except String α) >>= f = f a := rfl

theorem exbind_err {α β : Type} (e : String) (f : α → Except String β) :
    (Except.error e : Except String α) >>= f = .error e := rfl

theorem stripPre_eq_some {s p t : String} : stripPre s p = some t ↔ s = p ++ t := by
  unfold stripPre
  split
  · rename_i hpre
    obtain ⟨rest, hrest⟩ := List.isPrefixOf_iff_prefix.mp hpre
    constructor
    · intro h
      injection h with h
      subst h
      apply String.ext
      show s.data = (p ++ String.mk (s.data.drop p.data.length)).data
      rw [String.data_append]
      show s.data = p.data ++ s.data.drop p.data.length
      conv_lhs => rw [← hrest]
      conv_rhs => rw [← hrest]
      rw [List.drop_left]
    · intro h
      subst h
      congr 1
      apply String.ext
      show (p ++ t).data.drop p.data.length = t.data
      rw [String.data_append, List.drop_left]
  · rename_i hpre
    constructor
    · intro h
      cases h
    · intro h
      subst h
      exact absurd (List.isPrefixOf_iff_prefix.mpr ⟨t.data, by rw [String.data_append]⟩) hpre

theorem stripPre_eq_none {s p : String} : stripPre s p = none ↔ ∀ t, s ≠ p ++ t := by
  constructor
  · intro h t ht
    have := stripPre_eq_some.mpr ht
    rw [h] at this
    cases this
  · intro h
    cases hs : stripPre s p with
    | none => rfl
    | some t => exact absurd (stripPre_eq_some.mp hs) (h t)

/-- The two recognized `$ref` prefixes are incompatible: no string matches both. -/
theorem definitions_defs_disjoint (n m : String) :
    ("#/definitions/" ++ n) ≠ ("#/$defs/" ++ m) := by
  intro h
  have hd := congrArg String.data h
  rw [String.data_append, String.data_append] at hd
  have h2 : ("#/definitions/".data ++ n.data)[2]? = ("#/$defs/".data ++ m.data)[2]? := by
    rw [hd]
  rw [List.getElem?_append_left (by decide), List.getElem?_append_left (by decide)] at h2
  exact absurd h2 (by decide)

/-- C10: `extract_ref_name` accepts exactly the strings
`"#/definitions/" ++ name` and `"#/$defs/" ++ name`, yielding the remainder
as the type name; every other string (such as `"#/components/schemas/X"`)
makes it — and hence `schema_object_to_field_type` on a node carrying such a
`$ref`, and the `$ref` fallback inside `extract_schema_name` — fail with an
"Unsupported reference format" error instead of producing a Reference:
`extract_schema_name` then falls back to a generated anonymous name. -/
theorem C10_extract_ref_name_characterization :
    (∀ r n, extract_ref_name r = .ok n ↔
      (r = "#/definitions/" ++ n ∨ r = "#/$defs/" ++ n))
    ∧ (∀ r, (∀ n, r ≠ "#/definitions/" ++ n) → (∀ n, r ≠ "#/$defs/" ++ n) →
        extract_ref_name r = .error ("Unsupported reference format: " ++ r))
    ∧ (∀ entries r, jsonGet entries "$ref" = some (.str r) →
        (∀ n, r ≠ "#/definitions/" ++ n) → (∀ n, r ≠ "#/$defs/" ++ n) →
        schema_object_to_field_type entries =
          .error ("Unsupported reference format: " ++ r))
    ∧ (∀ aat obj r, jsonGet obj "title" = none →
        jsonGet obj "$ref" = some (.str r) →
        (∀ n, r ≠ "#/definitions/" ++ n) → (∀ n, r ≠ "#/$defs/" ++ n) →
        extract_schema_name aat (.obj obj) = .ok (first_free_anon aat.type_names))
    ∧ extract_ref_name "#/components/schemas/X" =
        .error "Unsupported reference format: #/components/schemas/X" := by
  have herr : ∀ r, (∀ n, r ≠ "#/definitions/" ++ n) → (∀ n, r ≠ "#/$defs/" ++ n) →
      extract_ref_name r = .error ("Unsupported reference format: " ++ r) := by
    intro r h1 h2
    unfold extract_ref_name
    rw [stripPre_eq_none.mpr h1, stripPre_eq_none.mpr h2]
  refine ⟨?_, herr, ?_, ?_, ?_⟩
  · intro r n
    constructor
    · intro h
      unfold extract_ref_name at h
      split at h
      · rename_i t hs
        injection h with h
        subst h
        exact Or.inl (stripPre_eq_some.mp hs)
      · split at h
        · rename_i t hs
          injection h with h
          subst h
          exact Or.inr (stripPre_eq_some.mp hs)
        · cases h
    · intro h
      unfold extract_ref_name
      cases h with
      | inl h =>
          rw [stripPre_eq_some.mpr h]
      | inr h =>
          have hnone : stripPre r "#/definitions/" = none := by
            rw [stripPre_eq_none]
            intro t ht
            exact definitions_defs_disjoint t n (ht.symm.trans h)
          rw [hnone, stripPre_eq_some.mpr h]
  · intro entries r hget h1 h2
    unfold schema_object_to_field_type schema_object_to_field_type_go
    simp only [hget]
    rw [herr r h1 h2]
    rfl
  · intro aat obj r htitle hget h1 h2
    unfold extract_schema_name
    simp only [Json.as_object, htitle, hget, Option.none_bind, Option.some_bind, Json.as_str]
    rw [herr r h1 h2]
  · rfl

/-- Witness for C10: the characterization applied at concrete strings. -/
theorem C10_witness :
    extract_ref_name "#/definitions/Foo" = .ok "Foo"
      ∧ extract_ref_name "#/$defs/Bar" = .ok "Bar"
      ∧ extract_ref_name "#/components/schemas/X" =
          .error "Unsupported reference format: #/components/schemas/X"
      ∧ schema_object_to_field_type [("$ref", .str "#/components/schemas/X")] =
          .error "Unsupported reference format: #/components/schemas/X" := by
  refine ⟨?_, ?_, C10_extract_ref_name_characterization.2.2.2.2, ?_⟩
  · exact (C10_extract_ref_name_characterization.1 "#/definitions/Foo" "Foo").mpr
      (Or.inl rfl)
  · exact (C10_extract_ref_name_characterization.1 "#/$defs/Bar" "Bar").mpr
      (Or.inr rfl)
  · exact C10_extract_ref_name_characterization.2.2.1
      [("$ref", .str "#/components/schemas/X")] "#/components/schemas/X" rfl
      (by
        intro n h
        have h2 : "#/components/schemas/X".data[2]? = ("#/definitions/" ++ n).data[2]? := by
          rw [h]
        rw [String.data_append, List.getElem?_append_left (by decide)] at h2
        exact absurd h2 (by decide))
      (by
        intro n h
        have h2 : "#/components/schemas/X".data[2]? = ("#/$defs/" ++ n).data[2]? := by
          rw [h]
        rw [String.data_append, List.getElem?_append_left (by decide)] at h2
        exact absurd h2 (by decide))

/-- Eliminating a successful `Except` bind: the first stage succeeded too. -/
theorem bindOk {α β : Type} {x : Except String α} {f : α → Except String β} {b : β}
    (h : (x >>= f) = .ok b) : ∃ a, x = .ok a ∧ f a = .ok b := by
  cases x with
  | ok a => exact ⟨a, rfl, h⟩
  | error e => cases h

theorem bindErr {α β : Type} {e : String} {f : α → Except String β} :
    ((Except.error e : Except String α) >>= f) = .error e := rfl

/-- `convert_path` succeeding means every typed segment passed
`validate_path_parameter_type`. -/
theorem convert_path_ok_validates :
    ∀ {aat : AAT} {segs : List SpecPathSegment} {out : AAT × List PathSegment},
    convert_path aat segs = .ok out →
    ∀ {name : String} {t : SpecType}, SpecPathSegment.typed name t ∈ segs →
    validate_path_parameter_type t = .ok () := by
  intro aat segs
  induction segs generalizing aat with
  | nil => intro out h name t hmem; cases hmem
  | cons seg rest ih =>
      intro out h name t hmem
      cases seg with
      | literal lit =>
          cases hmem with
          | tail _ hmem =>
              unfold convert_path at h
              obtain ⟨a, ha, _⟩ := bindOk h
              exact ih ha hmem
      | typed sname st =>
          unfold convert_path at h
          obtain ⟨u, hu, h⟩ := bindOk h
          cases hmem with
          | head =>
              cases u
              exact hu
          | tail _ hmem =>
              obtain ⟨p1, hp1, h⟩ := bindOk h
              obtain ⟨p2, hp2, _⟩ := bindOk h
              exact ih hp2 hmem

/-- `convert_endpoints` succeeding means every typed path segment of every
endpoint passed `validate_path_parameter_type`. -/
theorem convert_endpoints_ok_validates :
    ∀ {aat : AAT} {es : List SpecEndpoint} {out : AAT × List Endpoint},
    convert_endpoints aat es = .ok out →
    ∀ {e : SpecEndpoint}, e ∈ es →
    ∀ {name : String} {t : SpecType}, SpecPathSegment.typed name t ∈ e.path →
    validate_path_parameter_type t = .ok () := by
  intro aat es
  induction es generalizing aat with
  | nil => intro out h e hmem; cases hmem
  | cons e0 rest ih =>
      intro out h e hmem
      unfold convert_endpoints at h
      obtain ⟨p1, hp1, h⟩ := bindOk h
      cases hmem with
      | head =>
          intro name t hseg
          exact convert_path_ok_validates hp1 hseg
      | tail _ hmem =>
          obtain ⟨p2, hp2, h⟩ := bindOk h
          obtain ⟨p3, hp3, h⟩ := bindOk h
          obtain ⟨p4, hp4, h⟩ := bindOk h
          obtain ⟨p5, hp5, h⟩ := bindOk h
          obtain ⟨p6, hp6, _⟩ := bindOk h
          intro name t hseg
          exact ih hp6 hmem hseg

/-- `convert_services` succeeding means the same for every service. -/
theorem convert_services_ok_validates :
    ∀ {aat : AAT} {ss : List SpecService} {out : AAT × List Service},
    convert_services aat ss = .ok out →
    ∀ {svc : SpecService}, svc ∈ ss →
    ∀ {e : SpecEndpoint}, e ∈ svc.endpoints →
    ∀ {name : String} {t : SpecType}, SpecPathSegment.typed name t ∈ e.path →
    validate_path_parameter_type t = .ok () := by
  intro aat ss
  induction ss generalizing aat with
  | nil => intro out h svc hmem; cases hmem
  | cons s0 rest ih =>
      intro out h svc hmem
      unfold convert_services at h
      obtain ⟨p1, hp1, h⟩ := bindOk h
      obtain ⟨p2, hp2, h⟩ := bindOk h
      cases hmem with
      | head =>
          intro e he name t hseg
          exact convert_endpoints_ok_validates hp2 he hseg
      | tail _ hmem =>
          obtain ⟨p3, hp3, _⟩ := bindOk h
          intro e he name t hseg
          exact ih hp3 hmem he hseg

/-- C8: during spec import, a typed path segment is admitted exactly when its
spec-side `Type` is `Schema(_)`; each of the six rejected categories (Void,
Stream, List, Optional, Tuple, NamedTuple) produces its own distinct message;
the check runs before the segment's type is normalized (the `convert_path`
error is exactly the `validate_path_parameter_type` error); and a successful
build implies every typed path segment of the spec was Schema-backed. -/
theorem C8_path_parameter_type_gate :
    (∀ t : SpecType, validate_path_parameter_type t = .ok () ↔ ∃ s, t = .schema s)
    ∧ validate_path_parameter_type .void = .error "Path parameter cannot be Void type"
    ∧ (∀ t, validate_path_parameter_type (.stream t) =
        .error "Path parameter cannot be Stream type - streams are not supported in URL paths")
    ∧ (∀ t, validate_path_parameter_type (.list t) =
        .error "Path parameter cannot be List type - use query parameters for arrays")
    ∧ (∀ t, validate_path_parameter_type (.optional t) =
        .error "Path parameter cannot be Optional type - path parameters are always required")
    ∧ (∀ ts, validate_path_parameter_type (.tuple ts) =
        .error "Path parameter cannot be Tuple type - use a structured type instead")
    ∧ (∀ fs, validate_path_parameter_type (.namedTuple fs) =
        .error "Path parameter cannot be NamedTuple type - use a structured type instead")
    ∧ ["Path parameter cannot be Void type",
       "Path parameter cannot be Stream type - streams are not supported in URL paths",
       "Path parameter cannot be List type - use query parameters for arrays",
       "Path parameter cannot be Optional type - path parameters are always required",
       "Path parameter cannot be Tuple type - use a structured type instead",
       "Path parameter cannot be NamedTuple type - use a structured type instead"].Nodup
    ∧ (∀ (aat : AAT) (name : String) (t : SpecType) (rest : List SpecPathSegment) (e : String),
        validate_path_parameter_type t = .error e →
        convert_path aat (.typed name t :: rest) = .error e)
    ∧ (∀ (sp : Spec) (aat : AAT), AAT.from_spec sp = .ok aat →
        ∀ svc ∈ sp.services, ∀ e ∈ svc.endpoints,
        ∀ (name : String) (t : SpecType), SpecPathSegment.typed name t ∈ e.path →
        ∃ s, t = .schema s) := by
  refine ⟨?_, rfl, fun _ => rfl, fun _ => rfl, fun _ => rfl, fun _ => rfl, fun _ => rfl,
    by decide, ?_, ?_⟩
  · intro t
    constructor
    · intro h
      cases t with
      | schema s => exact ⟨s, rfl⟩
      | void => cases h
      | stream t => cases h
      | list t => cases h
      | optional t => cases h
      | tuple ts => cases h
      | namedTuple fs => cases h
    · rintro ⟨s, rfl⟩
      rfl
  · intro aat name t rest e h
    unfold convert_path
    rw [h]
    rfl
  · intro sp aat h svc hsvc e he name t hseg
    unfold AAT.from_spec at h
    obtain ⟨aat0, h0, _⟩ := bindOk h
    unfold import_from_spec at h0
    obtain ⟨p1, hp1, h0⟩ := bindOk h0
    obtain ⟨p2, hp2, _⟩ := bindOk h0
    have hv := convert_services_ok_validates hp2 hsvc he hseg
    cases ht : t with
    | schema s => exact ⟨s, rfl⟩
    | void => rw [ht] at hv; cases hv
    | stream t' => rw [ht] at hv; cases hv
    | list t' => rw [ht] at hv; cases hv
    | optional t' => rw [ht] at hv; cases hv
    | tuple ts => rw [ht] at hv; cases hv
    | namedTuple fs => rw [ht] at hv; cases hv

/-- A one-endpoint spec whose single path parameter is Schema-backed. -/
def c8_spec : Spec :=
  { name := "w", headers := [],
    services := [{ name := "s", headers := [],
                   endpoints := [{ name := "e", method := .get,
                                   path := [.typed "x" (.schema (.bool true))],
                                   query := none, body := none, response := .void,
                                   upgrade := none, headers := [] }] }] }

/-- Witness for C8: the gate evaluated on concrete segment types and a
concrete one-endpoint spec. -/
theorem C8_witness :
    (validate_path_parameter_type (.schema (.bool true)) = .ok ()
      ∧ validate_path_parameter_type (.optional .void) =
          .error "Path parameter cannot be Optional type - path parameters are always required")
    ∧ convert_path AAT.new [.typed "x" .void] = .error "Path parameter cannot be Void type"
    ∧ (∃ s, SpecType.schema (Json.bool true) = SpecType.schema s) := by
  obtain ⟨h1, h2, h3, h4, h5, h6, h7, h8, h9, h10⟩ := C8_path_parameter_type_gate
  refine ⟨⟨(h1 _).mpr ⟨.bool true, rfl⟩, h5 .void⟩, ?_, ?_⟩
  · exact h9 AAT.new "x" .void [] "Path parameter cannot be Void type" rfl
  · exact h10 c8_spec _ rfl _ (List.mem_singleton.mpr rfl) _ (List.mem_singleton.mpr rfl)
      "x" (.schema (.bool true)) (List.mem_singleton.mpr rfl)

/-- The enum-variant loop accepts exactly the all-string-literal variant lists. -/
theorem check_enum_ok_iff {pn en tn : String} {vs : List EnumVariant} :
    check_enum_variants_are_strings pn en tn vs = .ok () ↔
      ∀ v ∈ vs, ∃ s, v.value = .str s := by
  induction vs with
  | nil => simp [check_enum_variants_are_strings]
  | cons v rest ih =>
      unfold check_enum_variants_are_strings
      cases hval : v.value <;>
        simp_all [check_enum_variants_are_strings]

theorem check_enum_err_msg {pn en tn msg : String} {vs : List EnumVariant}
    (h : check_enum_variants_are_strings pn en tn vs = .error msg) :
    msg = "Path parameter '" ++ pn ++ ("' in endpoint '" ++ en
      ++ ("' references enum '" ++ tn
      ++ "' which has non-string variant. Only string enums are allowed in path parameters.")) := by
  induction vs with
  | nil => cases h
  | cons v rest ih =>
      unfold check_enum_variants_are_strings at h
      cases hval : v.value <;> rw [hval] at h
      · exact ih h
      all_goals
        injection h with h
        rw [← h]
        simp [String.append_assoc]

/-- `validate_path_parameter_is_stringifiable` accepts exactly primitives,
literals, and references to all-string enums present in the type list. -/
theorem stringifiable_ok_iff {ft : FieldType} {ep pn : String} {types : List NamedType} :
    validate_path_parameter_is_stringifiable ft ep pn types = .ok () ↔
      ((∃ p, ft = .primitive p) ∨ (∃ l, ft = .literal l) ∨
        (∃ n e, ft = .reference n
          ∧ types.find? (fun t => get_type_name t = n) = some (.enum e)
          ∧ ∀ v ∈ e.variants, ∃ s, v.value = .str s)) := by
  cases ft with
  | primitive p =>
      cases p <;> simp [validate_path_parameter_is_stringifiable]
  | literal l => simp [validate_path_parameter_is_stringifiable]
  | reference n =>
      unfold validate_path_parameter_is_stringifiable
      cases hfind : types.find? (fun t => get_type_name t = n) with
      | none => simp [hfind]
      | some nt =>
          cases nt with
          | enum e => simp [hfind, check_enum_ok_iff]
          | object o => simp [hfind]
          | union u => simp [hfind]
  | optional t => simp [validate_path_parameter_is_stringifiable]
  | list t => simp [validate_path_parameter_is_stringifiable]
  | map t => simp [validate_path_parameter_is_stringifiable]
  | stream t => simp [validate_path_parameter_is_stringifiable]
  | intersection ts => simp [validate_path_parameter_is_stringifiable]
  | tuple ts => simp [validate_path_parameter_is_stringifiable]
  | any => simp [validate_path_parameter_is_stringifiable]

/-- Every rejection message of the stringifiability check carries the
parameter name and the endpoint name. -/
theorem stringifiable_err_msg {ft : FieldType} {ep pn msg : String}
    {types : List NamedType}
    (h : validate_path_parameter_is_stringifiable ft ep pn types = .error msg) :
    ∃ a b c, msg = a ++ pn ++ (b ++ ep ++ c) := by
  cases ft with
  | primitive p => cases p <;> cases h
  | literal l => cases h
  | reference n =>
      simp only [validate_path_parameter_is_stringifiable] at h
      cases hfind : types.find? (fun t => get_type_name t = n) <;> rw [hfind] at h
      · injection h with h
        exact ⟨"Path parameter '", "' in endpoint '", _, by rw [← h]; simp only [String.append_assoc]; rfl⟩
      · rename_i nt
        cases nt with
        | enum e =>
            exact ⟨"Path parameter '", "' in endpoint '", _, check_enum_err_msg h⟩
        | object o =>
            injection h with h
            exact ⟨"Path parameter '", "' in endpoint '", _,
              by rw [← h]; simp only [String.append_assoc]; rfl⟩
        | union u =>
            injection h with h
            exact ⟨"Path parameter '", "' in endpoint '", _,
              by rw [← h]; simp only [String.append_assoc]; rfl⟩
  | optional t =>
      injection h with h
      exact ⟨"Path parameter '", "' in endpoint '", _, by rw [← h]; simp only [String.append_assoc]; rfl⟩
  | list t =>
      injection h with h
      exact ⟨"Path parameter '", "' in endpoint '", _, by rw [← h]; simp only [String.append_assoc]; rfl⟩
  | map t =>
      injection h with h
      exact ⟨"Path parameter '", "' in endpoint '", _, by rw [← h]; simp only [String.append_assoc]; rfl⟩
  | stream t =>
      injection h with h
      exact ⟨"Path parameter '", "' in endpoint '", _, by rw [← h]; simp only [String.append_assoc]; rfl⟩
  | intersection ts =>
      injection h with h
      exact ⟨"Path parameter '", "' in endpoint '", _, by rw [← h]; simp only [String.append_assoc]; rfl⟩
  | tuple ts =>
      injection h with h
      exact ⟨"Path parameter '", "' in endpoint '", _, by rw [← h]; simp only [String.append_assoc]; rfl⟩
  | any =>
      injection h with h
      exact ⟨"Path parameter '", "' in endpoint '", _, by rw [← h]; simp only [String.append_assoc]; rfl⟩

/-- C2: path-parameter validation accepts a parameter's `FieldType` exactly
when it is a Primitive (Bool, Int, Float, or String of any format), a Literal,
or a Reference whose target in the type list is an Enum all of whose variant
values are String literals; every other shape is rejected with a message
carrying the endpoint name and the parameter name. -/
theorem C2_path_parameter_stringifiability :
    ∀ (ft : FieldType) (ep pn : String) (types : List NamedType),
      (validate_path_parameter_is_stringifiable ft ep pn types = .ok () ↔
        ((∃ p, ft = .primitive p) ∨ (∃ l, ft = .literal l) ∨
          (∃ n e, ft = .reference n
            ∧ types.find? (fun t => get_type_name t = n) = some (.enum e)
            ∧ ∀ v ∈ e.variants, ∃ s, v.value = .str s)))
      ∧ (∀ msg, validate_path_parameter_is_stringifiable ft ep pn types = .error msg →
          ∃ a b c, msg = a ++ pn ++ (b ++ ep ++ c)) :=
  fun _ _ _ _ =>
    ⟨stringifiable_ok_iff, fun _ h => stringifiable_err_msg h⟩

/-- Witness for C2: an all-string enum reference passes, `Optional(String)`
fails naming the endpoint and parameter, an object reference fails. -/
theorem C2_witness :
    (validate_path_parameter_is_stringifiable (.reference "Op") "ep" "p"
        [.enum { name := "Op", variants := [{ value := .str "Add", description := none },
                                            { value := .str "Subtract", description := none }] }]
      = .ok ())
    ∧ validate_path_parameter_is_stringifiable
        (.optional (.primitive (.string none))) "ep" "p" [] =
        .error "Path parameter 'p' in endpoint 'ep' cannot be optional. Path parameters are always required."
    ∧ (∃ a b c,
        "Path parameter 'p' in endpoint 'ep' cannot be optional. Path parameters are always required."
          = a ++ "p" ++ (b ++ "ep" ++ c)) := by
  refine ⟨?_, rfl, ?_⟩
  · refine (C2_path_parameter_stringifiability (.reference "Op") "ep" "p" _).1.mpr
      (Or.inr (Or.inr ⟨"Op", _, rfl, rfl, ?_⟩))
    intro v hv
    rcases List.mem_cons.mp hv with rfl | hv
    · exact ⟨"Add", rfl⟩
    rcases List.mem_cons.mp hv with rfl | hv
    · exact ⟨"Subtract", rfl⟩
    cases hv
  · exact (C2_path_parameter_stringifiability (.optional (.primitive (.string none)))
      "ep" "p" []).2 _ rfl

/-- C6: a schema node typed `["string","null"]` (not a `$ref`, no `allOf`, no
recognized `format`) normalizes to `Optional(Primitive(String(None)))`; a node
whose only declared type is `"null"` normalizes to `Literal(Null)` directly. -/
theorem C6_nullable_normalization :
    ∀ obj : List (String × Json),
      jsonGet obj "$ref" = none → jsonGet obj "allOf" = none →
      ((jsonGet obj "type" = some (.arr [.str "string", .str "null"]) →
          ((jsonGet obj "format").bind Json.as_str).bind string_format_from_str = none →
          schema_object_to_field_type obj = .ok (.optional (.primitive (.string none))))
        ∧ (jsonGet obj "type" = some (.str "null") →
            schema_object_to_field_type obj = .ok (.literal .null))
        ∧ (jsonGet obj "type" = some (.arr [.str "null"]) →
            schema_object_to_field_type obj = .ok (.literal .null))) := by
  intro obj href hallOf
  refine ⟨?_, ?_, ?_⟩
  · intro htype hfmt
    unfold schema_object_to_field_type schema_object_to_field_type_go
    simp [href, hallOf, htype, hfmt, as_str_str, as_str_arr, as_array_arr,
      schema_base_type, exbind_ok, exbind_err]
  · intro htype
    unfold schema_object_to_field_type schema_object_to_field_type_go
    simp [href, hallOf, htype, as_str_str, as_str_arr, as_array_arr, as_array_str,
      schema_base_type, exbind_ok, exbind_err]
  · intro htype
    unfold schema_object_to_field_type schema_object_to_field_type_go
    simp [href, hallOf, htype, as_str_str, as_str_arr, as_array_arr,
      schema_base_type, exbind_ok, exbind_err]

/-- Witness for C6: the normalization evaluated on concrete schema objects. -/
theorem C6_witness :
    schema_object_to_field_type [("type", .arr [.str "string", .str "null"])] =
        .ok (.optional (.primitive (.string none)))
      ∧ schema_object_to_field_type [("type", .str "null")] = .ok (.literal .null)
      ∧ schema_object_to_field_type [("type", .arr [.str "null"])] = .ok (.literal .null) :=
  ⟨(C6_nullable_normalization [("type", .arr [.str "string", .str "null"])] rfl rfl).1
      rfl rfl,
   (C6_nullable_normalization [("type", .str "null")] rfl rfl).2.1 rfl,
   (C6_nullable_normalization [("type", .arr [.str "null"])] rfl rfl).2.2 rfl⟩

/-- C9: constraint extraction prefers the draft-6+ numeric
`exclusiveMinimum`/`exclusiveMaximum` style over the draft-4 boolean-flag
style (and supports both); extracted constraints pass `Constraints::validate`,
which enforces minimum ≤ maximum, strictly ordered exclusive bounds,
minLength ≤ maxLength, minItems ≤ maxItems and multipleOf > 0; concretely,
`minimum: 10, maximum: 5` fails extraction while `minimum: 0, maximum: 10`
succeeds. -/
theorem C9_constraints :
    (∀ (obj : List (String × Json)) (exm : F64),
      (jsonGet obj "exclusiveMinimum").bind Json.as_f64 = some exm →
      (jsonGet obj "exclusiveMaximum").bind Json.as_f64 = none →
      (jsonGet obj "maximum").bind Json.as_f64 = none →
      (jsonGet obj "multipleOf").bind Json.as_f64 = none →
      (jsonGet obj "minLength").bind Json.as_u64 = none →
      (jsonGet obj "maxLength").bind Json.as_u64 = none →
      (jsonGet obj "pattern").bind Json.as_str = none →
      (jsonGet obj "minItems").bind Json.as_u64 = none →
      (jsonGet obj "maxItems").bind Json.as_u64 = none →
      (jsonGet obj "uniqueItems").bind Json.as_bool = none →
      extract_constraints_from_object (some obj) =
        .ok (some { exclusive_minimum := some exm }))
    ∧ (∀ (obj : List (String × Json)) (mn : F64),
      (jsonGet obj "exclusiveMinimum").bind Json.as_f64 = none →
      (jsonGet obj "exclusiveMinimum").bind Json.as_bool = some true →
      (jsonGet obj "minimum").bind Json.as_f64 = some mn →
      (jsonGet obj "exclusiveMaximum").bind Json.as_f64 = none →
      (jsonGet obj "maximum").bind Json.as_f64 = none →
      (jsonGet obj "multipleOf").bind Json.as_f64 = none →
      (jsonGet obj "minLength").bind Json.as_u64 = none →
      (jsonGet obj "maxLength").bind Json.as_u64 = none →
      (jsonGet obj "pattern").bind Json.as_str = none →
      (jsonGet obj "minItems").bind Json.as_u64 = none →
      (jsonGet obj "maxItems").bind Json.as_u64 = none →
      (jsonGet obj "uniqueItems").bind Json.as_bool = none →
      extract_constraints_from_object (some obj) =
        .ok (some { exclusive_minimum := some mn }))
    ∧ (∀ c : Constraints, c.validate = .ok () →
        (∀ a b : Rat, c.minimum = some (.val a) → c.maximum = some (.val b) → a ≤ b)
        ∧ (∀ a b : Rat, c.exclusive_minimum = some (.val a) →
            c.exclusive_maximum = some (.val b) → a < b)
        ∧ (∀ a b : Nat, c.min_length = some a → c.max_length = some b → a ≤ b)
        ∧ (∀ a b : Nat, c.min_items = some a → c.max_items = some b → a ≤ b)
        ∧ (∀ q : Rat, c.multiple_of = some (.val q) → 0 < q))
    ∧ (extract_constraints_from_object
        (some [("minimum", .num (.int 10)), ("maximum", .num (.int 5))])).isOk = false
    ∧ extract_constraints_from_object
        (some [("minimum", .num (.int 0)), ("maximum", .num (.int 10))]) =
        .ok (some { minimum := some (.val 0), maximum := some (.val 10) }) := by
  refine ⟨?_, ?_, ?_, by decide, by rfl⟩
  · intro obj exm h1 h2 h3 h4 h5 h6 h7 h8 h9 h10
    unfold extract_constraints_from_object
    simp [h1, h2, h3, h4, h5, h6, h7, h8, h9, h10, Constraints.validate, exbind_ok,
      constraints_stage_min, constraints_stage_max, constraints_stage_multiple_of,
      constraints_stage_min_length, constraints_stage_max_length, constraints_stage_pattern,
      constraints_stage_min_items, constraints_stage_max_items, constraints_stage_unique]
  · intro obj mn hf hb h1 h2 h3 h4 h5 h6 h7 h8 h9 h10
    unfold extract_constraints_from_object
    simp [hf, hb, h1, h2, h3, h4, h5, h6, h7, h8, h9, h10, Constraints.validate, exbind_ok,
      constraints_stage_min, constraints_stage_max, constraints_stage_multiple_of,
      constraints_stage_min_length, constraints_stage_max_length, constraints_stage_pattern,
      constraints_stage_min_items, constraints_stage_max_items, constraints_stage_unique]
  · intro c h
    unfold Constraints.validate at h
    split_ifs at h with g1 g2 g3 g4 g5 g6 g7
    refine ⟨?_, ?_, ?_, ?_, ?_⟩
    · intro a b ha hb
      rw [ha, hb] at g1
      simp [F64.gt] at g1
      exact g1
    · intro a b ha hb
      rw [ha, hb] at g2
      simp [F64.ge] at g2
      exact g2
    · intro a b ha hb
      rw [ha, hb] at g5
      simpa using g5
    · intro a b ha hb
      rw [ha, hb] at g6
      simpa using g6
    · intro q hq
      rw [hq] at g7
      simp [F64.le] at g7
      exact g7

/-- Witness for C9: both exclusivity styles evaluated on concrete objects. -/
theorem C9_witness :
    extract_constraints_from_object (some [("exclusiveMinimum", .num (.int 3)),
        ("minimum", .num (.int 1))]) =
      .ok (some { exclusive_minimum := some (.val 3) })
    ∧ extract_constraints_from_object (some [("minimum", .num (.int 4)),
        ("exclusiveMinimum", .bool true)]) =
      .ok (some { exclusive_minimum := some (.val 4) })
    ∧ ((0 : Rat) ≤ 10)
    ∧ (extract_constraints_from_object
        (some [("minimum", .num (.int 10)), ("maximum", .num (.int 5))])).isOk = false := by
  obtain ⟨h6, h4, hval, hbad, hgood⟩ := C9_constraints
  refine ⟨h6 _ (.val 3) rfl rfl rfl rfl rfl rfl rfl rfl rfl rfl,
          h4 _ (.val 4) rfl rfl rfl rfl rfl rfl rfl rfl rfl rfl rfl rfl, ?_, hbad⟩
  exact (hval { minimum := some (.val 0), maximum := some (.val 10) } (by rfl)).1
    0 10 rfl rfl

/-! ## Characterizing the structural-equality oracle -/

mutual

/-- No `Stream` or `Tuple` constructor occurs in the field type: the fragment
of the algebra on which `field_types_are_equal` has positive cases. -/
def FieldType.streamTupleFree : FieldType → Bool
  | .primitive _ => true
  | .literal _ => true
  | .optional t => t.streamTupleFree
  | .list t => t.streamTupleFree
  | .map t => t.streamTupleFree
  | .stream _ => false
  | .reference _ => true
  | .intersection ts => FieldType.streamTupleFreeList ts
  | .tuple _ => false
  | .any => true

def FieldType.streamTupleFreeList : List FieldType → Bool
  | [] => true
  | t :: ts => t.streamTupleFree && FieldType.streamTupleFreeList ts

end

def optNotNan : Option F64 → Bool
  | some v => !v.isNan
  | none => true

/-- No NaN among the numeric constraint values (as is the case for every
constraint extracted from JSON, whose numbers are never NaN). -/
def Constraints.nanFree (c : Constraints) : Bool :=
  optNotNan c.minimum && optNotNan c.maximum && optNotNan c.exclusive_minimum
    && optNotNan c.exclusive_maximum && optNotNan c.multiple_of

def optConstraintsNanFree : Option Constraints → Bool
  | some c => c.nanFree
  | none => true

/-- A field on which the oracle's comparison is well-behaved: no
Stream/Tuple in its type and no NaN in its constraints. -/
def Field.dedupSafe (f : Field) : Bool :=
  f.type.streamTupleFree && optConstraintsNanFree f.constraints

def fieldsDedupSafe : List Field → Bool
  | [] => true
  | f :: fs => f.dedupSafe && fieldsDedupSafe fs

def ObjectType.dedupSafe (o : ObjectType) : Bool := fieldsDedupSafe o.fields

def variantsDedupSafe : List UnionTypeVariant → Bool
  | [] => true
  | v :: vs =>
      (match v.mode with
        | .object o => o.dedupSafe
        | .literal _ => true)
        && variantsDedupSafe vs

def NamedType.dedupSafe : NamedType → Bool
  | .object o => o.dedupSafe
  | .union u => variantsDedupSafe u.variants
  | .enum _ => true

/-- Erase the declared names the oracle ignores (the type's own name and the
names of nested variant objects), keeping everything it compares. -/
def ObjectType.shape (o : ObjectType) : ObjectType := { name := "", fields := o.fields }

def UnionTypeVariant.shape (v : UnionTypeVariant) : UnionTypeVariant :=
  { name := v.name,
    mode := match v.mode with
      | .object o => .object o.shape
      | .literal l => .literal l }

def NamedType.shape : NamedType → NamedType
  | .object o => .object o.shape
  | .union u => .union { name := "", discriminator := u.discriminator,
                         variants := u.variants.map UnionTypeVariant.shape }
  | .enum e => .enum { name := "", variants := e.variants }

theorem primitives_are_equal_iff {a b : PrimitiveType} :
    primitives_are_equal a b = true ↔ a = b := by
  cases a <;> cases b <;> simp [primitives_are_equal]

theorem literals_are_equal_iff {a b : LiteralType} :
    literals_are_equal a b = true ↔ a = b := by
  cases a <;> cases b <;> simp [literals_are_equal]
  case float.float x y =>
    cases x <;> cases y <;> simp [F64.isNan, F64.rawEq]

mutual

theorem ft_eq_iff : ∀ (a b : FieldType),
    field_types_are_equal a b = true ↔ (a = b ∧ a.streamTupleFree = true)
  | .primitive p, b => by
      cases b <;> simp [field_types_are_equal, FieldType.streamTupleFree,
        primitives_are_equal_iff]
  | .literal l, b => by
      cases b <;> simp [field_types_are_equal, FieldType.streamTupleFree,
        literals_are_equal_iff]
  | .optional t, b => by
      cases b <;> simp [field_types_are_equal, FieldType.streamTupleFree]
      exact ft_eq_iff t _
  | .list t, b => by
      cases b <;> simp [field_types_are_equal, FieldType.streamTupleFree]
      exact ft_eq_iff t _
  | .map t, b => by
      cases b <;> simp [field_types_are_equal, FieldType.streamTupleFree]
      exact ft_eq_iff t _
  | .stream t, b => by
      cases b <;> simp [field_types_are_equal, FieldType.streamTupleFree]
  | .reference n, b => by
      cases b <;> simp [field_types_are_equal, FieldType.streamTupleFree]
  | .intersection ts, b => by
      cases b <;> simp [field_types_are_equal, FieldType.streamTupleFree]
      rename_i us
      have h := ftl_eq_iff ts us
      tauto
  | .tuple ts, b => by
      cases b <;> simp [field_types_are_equal, FieldType.streamTupleFree]
  | .any, b => by
      cases b <;> simp [field_types_are_equal, FieldType.streamTupleFree]

theorem ftl_eq_iff : ∀ (as bs : List FieldType),
    (as.length = bs.length ∧ field_type_lists_are_equal as bs = true) ↔
      (as = bs ∧ FieldType.streamTupleFreeList as = true)
  | [], [] => by simp [field_type_lists_are_equal, FieldType.streamTupleFreeList]
  | [], b :: bs => by simp [field_type_lists_are_equal]
  | a :: as, [] => by simp [field_type_lists_are_equal]
  | a :: as, b :: bs => by
      simp only [field_type_lists_are_equal, FieldType.streamTupleFreeList,
        List.length_cons, List.cons.injEq, Bool.and_eq_true, Nat.add_right_cancel_iff]
      have h1 := ft_eq_iff a b
      have h2 := ftl_eq_iff as bs
      tauto

end

theorem optF64Eq_iff {x y : Option F64} :
    optF64Eq x y = true ↔ (x = y ∧ optNotNan x = true) := by
  cases x <;> cases y <;> simp [optF64Eq, optNotNan]
  rename_i a b
  cases a <;> cases b <;> simp [F64.rawEq, F64.isNan]

theorem constraints_are_equal_iff {x y : Option Constraints} :
    constraints_are_equal x y = true ↔ (x = y ∧ optConstraintsNanFree x = true) := by
  cases x <;> cases y <;>
    simp [constraints_are_equal, optConstraintsNanFree, Constraints.nanFree]
  rename_i c d
  cases c
  cases d
  simp only [constraints_are_equal, Bool.and_eq_true, optF64Eq_iff, decide_eq_true_eq,
    Constraints.mk.injEq, Constraints.nanFree]
  tauto

theorem fields_eq_iff : ∀ (fs gs : List Field),
    (fs.length = gs.length ∧ object_fields_are_equal fs gs = true) ↔
      (fs = gs ∧ fieldsDedupSafe fs = true)
  | [], [] => by simp [object_fields_are_equal, fieldsDedupSafe]
  | [], g :: gs => by simp [object_fields_are_equal]
  | f :: fs, [] => by simp [object_fields_are_equal]
  | f :: fs, g :: gs => by
      obtain ⟨fn, ft, fc⟩ := f
      obtain ⟨gn, gt, gc⟩ := g
      simp only [object_fields_are_equal, fieldsDedupSafe, Field.dedupSafe,
        List.length_cons, List.cons.injEq, Bool.and_eq_true, Nat.add_right_cancel_iff,
        Field.mk.injEq, decide_eq_true_eq]
      have h1 := ft_eq_iff ft gt
      have h2 := constraints_are_equal_iff (x := fc) (y := gc)
      have h3 := fields_eq_iff fs gs
      tauto

theorem objects_are_equal_iff {a b : ObjectType} :
    objects_are_equal a b = true ↔ (a.shape = b.shape ∧ a.dedupSafe = true) := by
  obtain ⟨an, af⟩ := a
  obtain ⟨bn, bf⟩ := b
  simp only [objects_are_equal, ObjectType.shape, ObjectType.dedupSafe,
    ObjectType.mk.injEq, Bool.and_eq_true, decide_eq_true_eq, true_and]
  exact fields_eq_iff af bf

theorem discriminators_are_equal_iff {x y : Option Discriminator} :
    discriminators_are_equal x y = true ↔ x = y := by
  cases x <;> cases y <;> simp [discriminators_are_equal]
  rename_i c d
  obtain ⟨cp, cm⟩ := c
  obtain ⟨dp, dm⟩ := d
  cases cm <;> cases dm <;>
    simp [discriminators_are_equal, Discriminator.mk.injEq]

theorem variant_modes_are_equal_iff {a b : UnionTypeVariantMode} :
    variant_modes_are_equal a b = true ↔
      ((match a with
         | .object o => UnionTypeVariantMode.object o.shape
         | .literal l => .literal l) =
        (match b with
         | .object o => UnionTypeVariantMode.object o.shape
         | .literal l => .literal l)
       ∧ (match a with
           | .object o => o.dedupSafe
           | .literal _ => true) = true) := by
  cases a <;> cases b <;>
    simp [variant_modes_are_equal, literals_are_equal_iff, objects_are_equal_iff]

theorem union_variants_eq_iff : ∀ (vs ws : List UnionTypeVariant),
    (vs.length = ws.length ∧ union_variants_are_equal vs ws = true) ↔
      (vs.map UnionTypeVariant.shape = ws.map UnionTypeVariant.shape
        ∧ variantsDedupSafe vs = true)
  | [], [] => by simp [union_variants_are_equal, variantsDedupSafe]
  | [], w :: ws => by simp [union_variants_are_equal]
  | v :: vs, [] => by simp [union_variants_are_equal]
  | v :: vs, w :: ws => by
      obtain ⟨vn, vm⟩ := v
      obtain ⟨wn, wm⟩ := w
      simp only [union_variants_are_equal, variantsDedupSafe, UnionTypeVariant.shape,
        List.map_cons, List.length_cons, List.cons.injEq, Bool.and_eq_true,
        Nat.add_right_cancel_iff, UnionTypeVariant.mk.injEq, decide_eq_true_eq]
      have h1 := variant_modes_are_equal_iff (a := vm) (b := wm)
      have h2 := union_variants_eq_iff vs ws
      tauto

theorem enum_variants_eq_iff : ∀ (vs ws : List EnumVariant),
    (vs.length = ws.length ∧ enum_variants_are_equal vs ws = true) ↔ vs = ws
  | [], [] => by simp [enum_variants_are_equal]
  | [], w :: ws => by simp [enum_variants_are_equal]
  | v :: vs, [] => by simp [enum_variants_are_equal]
  | v :: vs, w :: ws => by
      obtain ⟨vv, vd⟩ := v
      obtain ⟨wv, wd⟩ := w
      simp only [enum_variants_are_equal, List.length_cons, List.cons.injEq,
        Bool.and_eq_true, Nat.add_right_cancel_iff, EnumVariant.mk.injEq,
        decide_eq_true_eq, literals_are_equal_iff]
      have h2 := enum_variants_eq_iff vs ws
      tauto

/-- The oracle decides exactly: same name-erased shape, and the left argument
lies in the Stream/Tuple-free, NaN-free fragment. -/
theorem types_are_structurally_equal_iff {a b : NamedType} :
    types_are_structurally_equal a b = true ↔
      (a.shape = b.shape ∧ a.dedupSafe = true) := by
  cases a <;> cases b <;>
    simp [types_are_structurally_equal, NamedType.shape, NamedType.dedupSafe]
  · exact objects_are_equal_iff
  · rename_i u w
    obtain ⟨un, ud, uv⟩ := u
    obtain ⟨wn, wd, wv⟩ := w
    simp only [unions_are_equal, UnionType.mk.injEq, Bool.and_eq_true,
      decide_eq_true_eq, true_and]
    have h1 := discriminators_are_equal_iff (x := ud) (y := wd)
    have h2 := union_variants_eq_iff uv wv
    tauto
  · rename_i e f
    obtain ⟨en, ev⟩ := e
    obtain ⟨fn, fv⟩ := f
    simp only [enums_are_equal, EnumType.mk.injEq, Bool.and_eq_true,
      decide_eq_true_eq, true_and]
    exact enum_variants_eq_iff ev fv

theorem variantsDedupSafe_map_shape :
    ∀ vs : List UnionTypeVariant,
      variantsDedupSafe (vs.map UnionTypeVariant.shape) = variantsDedupSafe vs
  | [] => rfl
  | v :: vs => by
      cases hm : v.mode <;>
        simp [variantsDedupSafe, UnionTypeVariant.shape, hm, ObjectType.dedupSafe,
          ObjectType.shape, variantsDedupSafe_map_shape vs]

theorem dedupSafe_shape : ∀ a : NamedType, a.shape.dedupSafe = a.dedupSafe := by
  intro a
  cases a with
  | object o => rfl
  | union u => exact variantsDedupSafe_map_shape u.variants
  | enum e => rfl

/-- An object type with a Stream-typed field: `field_types_are_equal` has no
positive case for Stream-vs-Stream (they fall into the final `_ => false`
arm), so this type is not structurally equal to itself. -/
def c5_stream_object : NamedType :=
  .object { name := "X",
            fields := [{ name := "s", type := .stream .any, constraints := none }] }

/-- C5 counterexample: `types_are_structurally_equal` is not reflexive on all
NamedType values — an object whose field has a Stream type is reported
structurally unequal to itself, refuting the claim as stated. -/
theorem C5_counterexample :
    types_are_structurally_equal c5_stream_object c5_stream_object = false := rfl

/-- C5 (amended): `types_are_structurally_equal` is symmetric and transitive
on all NamedType values (with NaN-equals-NaN semantics for float literals and
names ignored), and it is reflexive on every NamedType whose fields are free
of Stream/Tuple types and of NaN constraint values — which covers every
NamedType the schema normalizer produces; full reflexivity fails because
Stream-vs-Stream and Tuple-vs-Tuple comparisons fall into the oracle's
catch-all false arm (see the counterexample). -/
theorem C5_structural_equality_equivalence :
    (∀ a : NamedType, a.dedupSafe = true → types_are_structurally_equal a a = true)
    ∧ (∀ a b : NamedType, types_are_structurally_equal a b = true →
        types_are_structurally_equal b a = true)
    ∧ (∀ a b c : NamedType, types_are_structurally_equal a b = true →
        types_are_structurally_equal b c = true →
        types_are_structurally_equal a c = true) := by
  refine ⟨?_, ?_, ?_⟩
  · intro a h
    exact types_are_structurally_equal_iff.mpr ⟨rfl, h⟩
  · intro a b h
    obtain ⟨hs, hsafe⟩ := types_are_structurally_equal_iff.mp h
    refine types_are_structurally_equal_iff.mpr ⟨hs.symm, ?_⟩
    rw [← dedupSafe_shape b, ← hs, dedupSafe_shape]
    exact hsafe
  · intro a b c h1 h2
    obtain ⟨hs1, hsafe⟩ := types_are_structurally_equal_iff.mp h1
    obtain ⟨hs2, _⟩ := types_are_structurally_equal_iff.mp h2
    exact types_are_structurally_equal_iff.mpr ⟨hs1.trans hs2, hsafe⟩

/-- Witness for C5: the amended equivalence applied to concrete types, and a
NaN float literal enum equal to itself under NaN-equals-NaN semantics. -/
theorem C5_witness :
    types_are_structurally_equal
        (.object { name := "A",
                   fields := [{ name := "f", type := .primitive .int, constraints := none }] })
        (.object { name := "A",
                   fields := [{ name := "f", type := .primitive .int, constraints := none }] })
      = true
    ∧ types_are_structurally_equal
        (.enum { name := "E", variants := [{ value := .float .nan, description := none }] })
        (.enum { name := "E", variants := [{ value := .float .nan, description := none }] })
      = true := by
  constructor
  · exact C5_structural_equality_equivalence.1 _ (by decide)
  · exact C5_structural_equality_equivalence.1 _ (by decide)

/-! ## The schema normalizer stays inside the oracle-safe fragment -/

theorem as_f64_not_nan {j : Json} {x : F64} (h : j.as_f64 = some x) : x.isNan = false := by
  cases j with
  | num n =>
      cases n <;>
        (injection h with h; subst h; rfl)
  | _ => cases h

theorem bind_as_f64_not_nan {o : Option Json} {x : F64}
    (h : o.bind Json.as_f64 = some x) : x.isNan = false := by
  cases o with
  | none => cases h
  | some j => exact as_f64_not_nan h

theorem constraints_stage_min_nanFree {obj : List (String × Json)}
    {st : Constraints × Bool} (h : st.1.nanFree = true) :
    (constraints_stage_min obj st).1.nanFree = true := by
  unfold constraints_stage_min
  split
  · rename_i x hx
    simp [Constraints.nanFree, optNotNan, bind_as_f64_not_nan hx] at h ⊢
    tauto
  split
  · rename_i x hx
    split <;>
      (simp [Constraints.nanFree, optNotNan, bind_as_f64_not_nan hx] at h ⊢; tauto)
  · exact h

theorem constraints_stage_max_nanFree {obj : List (String × Json)}
    {st : Constraints × Bool} (h : st.1.nanFree = true) :
    (constraints_stage_max obj st).1.nanFree = true := by
  unfold constraints_stage_max
  split
  · rename_i x hx
    simp [Constraints.nanFree, optNotNan, bind_as_f64_not_nan hx] at h ⊢
    tauto
  split
  · rename_i x hx
    split <;>
      (simp [Constraints.nanFree, optNotNan, bind_as_f64_not_nan hx] at h ⊢; tauto)
  · exact h

theorem constraints_stage_multiple_of_nanFree {obj : List (String × Json)}
    {st : Constraints × Bool} (h : st.1.nanFree = true) :
    (constraints_stage_multiple_of obj st).1.nanFree = true := by
  unfold constraints_stage_multiple_of
  split
  · rename_i x hx
    simp [Constraints.nanFree, optNotNan, bind_as_f64_not_nan hx] at h ⊢
    tauto
  · exact h

theorem constraints_stage_min_length_nanFree {obj : List (String × Json)}
    {st : Constraints × Bool} (h : st.1.nanFree = true) :
    (constraints_stage_min_length obj st).1.nanFree = true := by
  unfold constraints_stage_min_length
  split
  · simp [Constraints.nanFree] at h ⊢; tauto
  · exact h

theorem constraints_stage_max_length_nanFree {obj : List (String × Json)}
    {st : Constraints × Bool} (h : st.1.nanFree = true) :
    (constraints_stage_max_length obj st).1.nanFree = true := by
  unfold constraints_stage_max_length
  split
  · simp [Constraints.nanFree] at h ⊢; tauto
  · exact h

theorem constraints_stage_pattern_nanFree {obj : List (String × Json)}
    {st : Constraints × Bool} (h : st.1.nanFree = true) :
    (constraints_stage_pattern obj st).1.nanFree = true := by
  unfold constraints_stage_pattern
  split
  · simp [Constraints.nanFree] at h ⊢; tauto
  · exact h

theorem constraints_stage_min_items_nanFree {obj : List (String × Json)}
    {st : Constraints × Bool} (h : st.1.nanFree = true) :
    (constraints_stage_min_items obj st).1.nanFree = true := by
  unfold constraints_stage_min_items
  split
  · simp [Constraints.nanFree] at h ⊢; tauto
  · exact h

theorem constraints_stage_max_items_nanFree {obj : List (String × Json)}
    {st : Constraints × Bool} (h : st.1.nanFree = true) :
    (constraints_stage_max_items obj st).1.nanFree = true := by
  unfold constraints_stage_max_items
  split
  · simp [Constraints.nanFree] at h ⊢; tauto
  · exact h

theorem constraints_stage_unique_nanFree {obj : List (String × Json)}
    {st : Constraints × Bool} (h : st.1.nanFree = true) :
    (constraints_stage_unique obj st).1.nanFree = true := by
  unfold constraints_stage_unique
  split
  · simp [Constraints.nanFree] at h ⊢; tauto
  · exact h

theorem extract_constraints_tail {st : Constraints × Bool} {oc : Option Constraints}
    (hsafe : st.1.nanFree = true)
    (h : (if st.2 = true then st.1.validate >>= fun _ => Except.ok (some st.1)
          else Except.ok none) = Except.ok oc) :
    optConstraintsNanFree oc = true := by
  split at h
  · obtain ⟨u, _, h2⟩ := bindOk h
    injection h2 with h2
    subst h2
    exact hsafe
  · injection h with h
    subst h
    rfl

/-- Constraints extracted from JSON contain no NaN (JSON numbers never are). -/
theorem extract_constraints_nanFree {o : Option (List (String × Json))}
    {oc : Option Constraints}
    (h : extract_constraints_from_object o = .ok oc) :
    optConstraintsNanFree oc = true := by
  cases o with
  | none =>
      injection h with h
      subst h
      rfl
  | some obj =>
      have hsafe :
          (constraints_stage_unique obj (constraints_stage_max_items obj
            (constraints_stage_min_items obj (constraints_stage_pattern obj
              (constraints_stage_max_length obj (constraints_stage_min_length obj
                (constraints_stage_multiple_of obj (constraints_stage_max obj
                  (constraints_stage_min obj ({}, false)))))))))).1.nanFree = true :=
        constraints_stage_unique_nanFree (constraints_stage_max_items_nanFree
          (constraints_stage_min_items_nanFree (constraints_stage_pattern_nanFree
            (constraints_stage_max_length_nanFree (constraints_stage_min_length_nanFree
              (constraints_stage_multiple_of_nanFree (constraints_stage_max_nanFree
                (constraints_stage_min_nanFree (by rfl)))))))))
      exact extract_constraints_tail hsafe h

/-- Every result of the fueled schema normalizer lies in the oracle-safe
fragment: no Stream/Tuple field types, no NaN constraints. -/
theorem schema_go_dedupSafe : ∀ fuel : Nat,
    (∀ j ft, schema_to_field_type_go fuel j = .ok ft → ft.streamTupleFree = true)
    ∧ (∀ entries ft, schema_object_to_field_type_go fuel entries = .ok ft →
        ft.streamTupleFree = true)
    ∧ (∀ obj ts ft, schema_base_type fuel obj ts = .ok ft → ft.streamTupleFree = true)
    ∧ (∀ vs fts, all_of_field_types_go fuel vs = .ok fts →
        FieldType.streamTupleFreeList fts = true)
    ∧ (∀ props req fs, object_fields_go fuel props req = .ok fs →
        fieldsDedupSafe fs = true)
    ∧ (∀ name entries nt, schema_to_object_type_go fuel name entries = .ok nt →
        nt.dedupSafe = true)
    ∧ (∀ one_of idx vs, union_variants_go fuel one_of idx = .ok vs →
        variantsDedupSafe vs = true)
    ∧ (∀ j name nt, schema_to_type_go fuel j name = .ok nt → nt.dedupSafe = true) := by
  intro fuel
  induction fuel with
  | zero =>
      refine ⟨?_, ?_, ?_, ?_, ?_, ?_, ?_, ?_⟩
      · intro j ft h; cases h
      · intro e ft h; cases h
      · intro o t ft h; cases h
      · intro vs fts h; cases h
      · intro p r fs h; cases h
      · intro n e nt h; cases h
      · intro o i vs h; cases h
      · intro j n nt h; cases h
  | succ n ih =>
      obtain ⟨ih_ft, ih_obj, ih_base, ih_all, ih_fields, ih_objty, ih_union, ih_ty⟩ := ih
      refine ⟨?_, ?_, ?_, ?_, ?_, ?_, ?_, ?_⟩
      · -- schema_to_field_type_go
        intro j ft h
        cases j with
        | bool b =>
            cases b
            · cases h
            · injection h with h
              subst h
              rfl
        | obj entries => exact ih_obj entries ft h
        | null => cases h
        | num x => cases h
        | str x => cases h
        | arr x => cases h
      · -- schema_object_to_field_type_go
        intro entries ft h
        unfold schema_object_to_field_type_go at h
        split at h
        · -- $ref
          obtain ⟨nm, _, h2⟩ := bindOk h
          injection h2 with h2
          subst h2
          rfl
        · split at h
          · -- allOf
            obtain ⟨ts, hts, h2⟩ := bindOk h
            injection h2 with h2
            subst h2
            exact ih_all _ _ hts
          · dsimp only at h
            split at h
            · -- pure-null special case
              injection h with h
              subst h
              rfl
            · split at h
              · -- map (additionalProperties) branch
                split at h
                · cases h
                · split at h
                  · injection h with h
                    subst h
                    rfl
                  · cases h
                  · obtain ⟨vt, hvt, h2⟩ := bindOk h
                    injection h2 with h2
                    subst h2
                    simpa [FieldType.streamTupleFree] using ih_ft _ _ hvt
              · -- base type then optional wrap
                split at h
                · cases h
                · rename_i base hbase
                  split at h <;> (injection h with h; subst h)
                  · simpa using ih_base _ _ _ hbase
                  · exact ih_base _ _ _ hbase
      · -- schema_base_type
        intro obj ts ft h
        unfold schema_base_type at h
        split at h
        · injection h with h; subst h; rfl
        · injection h with h; subst h; rfl
        · injection h with h; subst h; rfl
        · injection h with h; subst h; rfl
        · injection h with h; subst h; rfl
        · -- array
          split at h
          · split at h
            · cases h
            · obtain ⟨it, hit, h2⟩ := bindOk h
              injection h2 with h2
              subst h2
              simpa [FieldType.streamTupleFree] using ih_ft _ _ hit
          · injection h with h; subst h; rfl
        · injection h with h; subst h; rfl
        · injection h with h; subst h; rfl
        · cases h
      · -- all_of_field_types_go
        intro vs fts h
        cases vs with
        | nil =>
            unfold all_of_field_types_go at h
            injection h with h
            subst h
            rfl
        | cons v rest =>
            unfold all_of_field_types_go at h
            split at h
            · cases h
            · obtain ⟨t, ht, h2⟩ := bindOk h
              obtain ⟨ts, hts, h3⟩ := bindOk h2
              injection h3 with h3
              subst h3
              show (t.streamTupleFree && FieldType.streamTupleFreeList ts) = true
              rw [ih_ft _ _ ht, ih_all _ _ hts]
              rfl
      · -- object_fields_go
        intro props req fs h
        cases props with
        | nil =>
            unfold object_fields_go at h
            injection h with h
            subst h
            rfl
        | cons p rest =>
            obtain ⟨pk, pv⟩ := p
            unfold object_fields_go at h
            split at h
            · cases h
            · obtain ⟨ft, hft, h2⟩ := bindOk h
              obtain ⟨oc, hoc, h3⟩ := bindOk h2
              obtain ⟨rest', hrest, h4⟩ := bindOk h3
              injection h4 with h4
              subst h4
              show (Field.dedupSafe _ && fieldsDedupSafe rest') = true
              rw [ih_fields _ _ _ hrest]
              have h5 := ih_ft _ _ hft
              have h6 := extract_constraints_nanFree hoc
              unfold Field.dedupSafe
              split <;> simp_all [FieldType.streamTupleFree]
      · -- schema_to_object_type_go
        intro name entries nt h
        unfold schema_to_object_type_go at h
        dsimp only at h
        split at h
        · obtain ⟨fields, hfields, h2⟩ := bindOk h
          injection h2 with h2
          subst h2
          show fieldsDedupSafe fields = true
          exact ih_fields _ _ _ hfields
        · injection h with h
          subst h
          rfl
      · -- union_variants_go
        intro one_of idx vs h
        cases one_of with
        | nil =>
            unfold union_variants_go at h
            injection h with h
            subst h
            rfl
        | cons v rest =>
            unfold union_variants_go at h
            split at h
            · cases h
            · split at h
              · split at h
                · -- single-value enum: literal variant
                  obtain ⟨lit, _, h2⟩ := bindOk h
                  obtain ⟨rest', hrest, h3⟩ := bindOk h2
                  injection h3 with h3
                  subst h3
                  show (true && variantsDedupSafe rest') = true
                  rw [ih_union _ _ _ hrest]
                  rfl
                · -- object variant
                  obtain ⟨ot, hot, h2⟩ := bindOk h
                  split at h2
                  · obtain ⟨rest', hrest, h3⟩ := bindOk h2
                    injection h3 with h3
                    subst h3
                    rename_i o
                    have ho : o.dedupSafe = true := ih_objty _ _ _ hot
                    show (o.dedupSafe && variantsDedupSafe rest') = true
                    rw [ho, ih_union _ _ _ hrest]
                    rfl
                  · cases h2
              · cases h
              · cases h
      · -- schema_to_type_go
        intro j name nt h
        cases j with
        | bool b => cases b <;> cases h
        | obj entries =>
            unfold schema_to_type_go at h
            split at h
            · cases h
            · rename_i fuel heq
              obtain rfl : fuel = n := by omega
              dsimp only at h
              -- enum, else oneOf, else object
              split at h
              · -- enum
                unfold schema_to_enum_type at h
                obtain ⟨vars, _, h2⟩ := bindOk h
                injection h2 with h2
                subst h2
                rfl
              · split at h
                · -- union
                  obtain ⟨vars, hvars, h2⟩ := bindOk h
                  injection h2 with h2
                  subst h2
                  exact ih_union _ _ _ hvars
                · exact ih_objty _ _ _ h
        | null => cases h
        | num x => cases h
        | str x => cases h
        | arr x => cases h

/-- Corollary: every NamedType the schema normalizer returns is free of
Stream/Tuple field types and NaN constraint values. -/
theorem schema_to_type_dedupSafe {s : Schema} {name : String} {nt : NamedType}
    (h : schema_to_type s name = .ok nt) : nt.dedupSafe = true :=
  (schema_go_dedupSafe (Json.size s + 1)).2.2.2.2.2.2.2 _ _ _ h

/-! ## `add_type_with_dedup_check` case lemmas -/

theorem add_type_fresh {aat : AAT} {nt : NamedType}
    (h : aat.types.find? (fun t => get_type_name t = get_type_name nt) = none) :
    add_type_with_dedup_check aat nt =
      .ok { aat with types := aat.types ++ [nt],
                     type_names := aat.type_names ++ [get_type_name nt] } := by
  simp [add_type_with_dedup_check, h]

theorem add_type_equal {aat : AAT} {nt et : NamedType}
    (hf : aat.types.find? (fun t => get_type_name t = get_type_name nt) = some et)
    (he : types_are_structurally_equal et nt = true) :
    add_type_with_dedup_check aat nt = .ok aat := by
  simp [add_type_with_dedup_check, hf, he]

theorem add_type_clash {aat : AAT} {nt et : NamedType}
    (hf : aat.types.find? (fun t => get_type_name t = get_type_name nt) = some et)
    (he : types_are_structurally_equal et nt = false) :
    add_type_with_dedup_check aat nt =
      .error ("Type name collision: a type named '" ++ get_type_name nt
        ++ "' already exists with a different structure") := by
  simp [add_type_with_dedup_check, hf, he]

/-- Successful `add_type_with_dedup_check` either appends a fresh type or is a
no-op on a structurally equal existing type. -/
theorem add_type_ok_cases {aat aat' : AAT} {nt : NamedType}
    (h : add_type_with_dedup_check aat nt = .ok aat') :
    (aat.types.find? (fun t => get_type_name t = get_type_name nt) = none
      ∧ aat' = { aat with types := aat.types ++ [nt],
                          type_names := aat.type_names ++ [get_type_name nt] })
    ∨ (∃ et, aat.types.find? (fun t => get_type_name t = get_type_name nt) = some et
        ∧ types_are_structurally_equal et nt = true ∧ aat' = aat) := by
  cases hf : aat.types.find? (fun t => get_type_name t = get_type_name nt) with
  | none =>
      rw [add_type_fresh hf] at h
      injection h with h
      exact .inl ⟨rfl, h.symm⟩
  | some et =>
      cases he : types_are_structurally_equal et nt with
      | false => rw [add_type_clash hf he] at h; cases h
      | true =>
          rw [add_type_equal hf he] at h
          injection h with h
          exact .inr ⟨et, rfl, he, h.symm⟩

/-- C3: `add_type_with_dedup_check` inserts a type whose name is not yet
present and records the name; a structurally equal same-named
re-registration succeeds as a no-op; a structurally different same-named
registration fails with the collision error naming the type; registering
the same schema-derived type twice never errors and, starting from a state
without that name, leaves exactly one entry with it; and a same-named
structurally different pair collides in either registration order. -/
theorem C3_add_type_with_dedup_check :
    (∀ aat nt,
        aat.types.find? (fun t => get_type_name t = get_type_name nt) = none →
        add_type_with_dedup_check aat nt =
          .ok { aat with types := aat.types ++ [nt],
                         type_names := aat.type_names ++ [get_type_name nt] })
    ∧ (∀ aat nt et,
        aat.types.find? (fun t => get_type_name t = get_type_name nt) = some et →
        types_are_structurally_equal et nt = true →
        add_type_with_dedup_check aat nt = .ok aat)
    ∧ (∀ aat nt et,
        aat.types.find? (fun t => get_type_name t = get_type_name nt) = some et →
        types_are_structurally_equal et nt = false →
        add_type_with_dedup_check aat nt =
          .error ("Type name collision: a type named '" ++ get_type_name nt
            ++ "' already exists with a different structure"))
    ∧ (∀ s name nt aat aat',
        schema_to_type s name = .ok nt →
        add_type_with_dedup_check aat nt = .ok aat' →
        add_type_with_dedup_check aat' nt = .ok aat'
          ∧ (aat.types.find? (fun t => get_type_name t = get_type_name nt) = none →
              (aat'.types.filter
                (fun t => get_type_name t = get_type_name nt)).length = 1))
    ∧ (∀ a b aat,
        get_type_name a = get_type_name b →
        types_are_structurally_equal a b = false →
        aat.types.find? (fun t => get_type_name t = get_type_name a) = none →
        (add_type_with_dedup_check aat a).bind
            (fun x => add_type_with_dedup_check x b) =
          .error ("Type name collision: a type named '" ++ get_type_name b
            ++ "' already exists with a different structure")
        ∧ (add_type_with_dedup_check aat b).bind
            (fun x => add_type_with_dedup_check x a) =
          .error ("Type name collision: a type named '" ++ get_type_name a
            ++ "' already exists with a different structure")) := by
  refine ⟨fun aat nt h => add_type_fresh h,
          fun aat nt et hf he => add_type_equal hf he,
          fun aat nt et hf he => add_type_clash hf he,
          ?_, ?_⟩
  · intro s name nt aat aat' hs hadd
    have hsafe : nt.dedupSafe = true := schema_to_type_dedupSafe hs
    have hrefl : types_are_structurally_equal nt nt = true :=
      types_are_structurally_equal_iff.mpr ⟨rfl, hsafe⟩
    rcases add_type_ok_cases hadd with ⟨hf, rfl⟩ | ⟨et, hf, he, rfl⟩
    · constructor
      · have hfind : (aat.types ++ [nt]).find?
            (fun t => get_type_name t = get_type_name nt) = some nt := by
          rw [List.find?_append, hf]
          simp
        exact add_type_equal hfind hrefl
      · intro _
        show ((aat.types ++ [nt]).filter
            (fun t => get_type_name t = get_type_name nt)).length = 1
        rw [List.filter_append]
        have hnil : aat.types.filter
            (fun t => get_type_name t = get_type_name nt) = [] := by
          rw [List.filter_eq_nil_iff]
          rw [List.find?_eq_none] at hf
          exact hf
        rw [hnil]
        simp
    · refine ⟨add_type_equal hf he, fun hnone => ?_⟩
      rw [hnone] at hf
      cases hf
  · intro a b aat hname hne hf
    have hfb : aat.types.find? (fun t => get_type_name t = get_type_name b) = none := by
      simp only [← hname]
      exact hf
    have hne2 : types_are_structurally_equal b a = false := by
      cases h2 : types_are_structurally_equal b a with
      | false => rfl
      | true =>
          obtain ⟨hs2, hsafe2⟩ := types_are_structurally_equal_iff.mp h2
          have hsafea : a.dedupSafe = true := by
            rw [← dedupSafe_shape a, ← hs2, dedupSafe_shape]
            exact hsafe2
          have hab : types_are_structurally_equal a b = true :=
            types_are_structurally_equal_iff.mpr ⟨hs2.symm, hsafea⟩
          rw [hab] at hne
          cases hne
    constructor
    · rw [add_type_fresh hf]
      have hfind : (aat.types ++ [a]).find?
          (fun t => get_type_name t = get_type_name b) = some a := by
        rw [List.find?_append, hfb]
        simp [hname]
      exact add_type_clash hfind hne
    · rw [add_type_fresh hfb]
      have hfind : (aat.types ++ [b]).find?
          (fun t => get_type_name t = get_type_name a) = some b := by
        rw [List.find?_append, hf]
        simp [hname]
      exact add_type_clash hfind hne2

def c3_objX : NamedType := .object { name := "X", fields := [] }

def c3_enumX : NamedType := .enum { name := "X", variants := [] }

def c3_aatX : AAT := { types := [c3_objX], services := [], headers := [],
                       type_names := ["X"] }

/-- Witness for C3: the empty-object schema registered twice is a no-op with
one entry named X, and object-X versus enum-X collides in either order. -/
theorem C3_witness :
    add_type_with_dedup_check c3_aatX c3_objX = .ok c3_aatX
    ∧ (add_type_with_dedup_check AAT.new c3_objX).bind
        (fun x => add_type_with_dedup_check x c3_enumX) =
      .error ("Type name collision: a type named '" ++ get_type_name c3_enumX
        ++ "' already exists with a different structure") := by
  have h := C3_add_type_with_dedup_check
  exact ⟨(h.2.2.2.1 (Json.obj []) "X" c3_objX AAT.new c3_aatX rfl rfl).1,
         (h.2.2.2.2 c3_objX c3_enumX AAT.new rfl rfl rfl).1⟩

/-! ## Name uniqueness is preserved by every type-adding operation -/

def namesUnique (aat : AAT) : Prop := (aat.types.map get_type_name).Nodup

theorem add_type_preserves_unique {aat aat' : AAT} {nt : NamedType}
    (h : add_type_with_dedup_check aat nt = .ok aat') (hu : namesUnique aat) :
    namesUnique aat' := by
  rcases add_type_ok_cases h with ⟨hf, rfl⟩ | ⟨et, hf, he, rfl⟩
  · show ((aat.types ++ [nt]).map get_type_name).Nodup
    rw [List.map_append]
    have hnot : get_type_name nt ∉ aat.types.map get_type_name := by
      rw [List.find?_eq_none] at hf
      intro hmem
      obtain ⟨t, ht, heq⟩ := List.mem_map.mp hmem
      exact absurd heq (by simpa using hf t ht)
    refine List.Nodup.append hu (List.nodup_singleton _) ?_
    intro x hx hx2
    simp only [List.map_cons, List.map_nil, List.mem_singleton] at hx2
    subst hx2
    exact hnot hx
  · exact hu

theorem append_defs_preserves_unique :
    ∀ defs aat aat', append_defs aat defs = .ok aat' → namesUnique aat →
      namesUnique aat' := by
  intro defs
  induction defs with
  | nil =>
      intro aat aat' h hu
      injection h with h
      rw [← h]
      exact hu
  | cons e rest ih =>
      intro aat aat' h hu
      obtain ⟨name, dv⟩ := e
      unfold append_defs at h
      split at h
      · obtain ⟨dt, hdt, h2⟩ := bindOk h
        obtain ⟨aat1, ha1, h3⟩ := bindOk h2
        exact ih _ _ h3 (add_type_preserves_unique ha1 hu)
      · exact ih _ _ h hu

theorem append_types_preserves_unique {aat aat' : AAT} {s : Schema} {n : String}
    (h : append_types_from_schema aat s n = .ok aat') (hu : namesUnique aat) :
    namesUnique aat' := by
  unfold append_types_from_schema at h
  obtain ⟨rt, hrt, h2⟩ := bindOk h
  obtain ⟨aat1, ha1, h3⟩ := bindOk h2
  have hu1 := add_type_preserves_unique ha1 hu
  split at h3
  · split at h3
    · exact append_defs_preserves_unique _ _ _ h3 hu1
    · injection h3 with h3
      rw [← h3]
      exact hu1
  · injection h3 with h3
    rw [← h3]
    exact hu1

theorem add_schema_preserves_unique {aat : AAT} {s : Schema} {r : AAT × String}
    (h : add_schema_and_get_name aat s = .ok r) (hu : namesUnique aat) :
    namesUnique r.1 := by
  unfold add_schema_and_get_name at h
  obtain ⟨name, hn, h2⟩ := bindOk h
  obtain ⟨aat2, ha2, h3⟩ := bindOk h2
  injection h3 with h3
  rw [← h3]
  exact append_types_preserves_unique ha2 hu

mutual

theorem spec_type_preserves_unique :
    ∀ aat t r, spec_type_to_field_type aat t = .ok r → namesUnique aat →
      namesUnique r.1
  | aat, .void, r, h, hu => by
      injection h with h
      rw [← h]
      exact hu
  | aat, .schema s, r, h, hu => by
      unfold spec_type_to_field_type at h
      split at h
      · obtain ⟨ft, _, h2⟩ := bindOk h
        injection h2 with h2
        rw [← h2]
        exact hu
      · obtain ⟨r2, hr2, h2⟩ := bindOk h
        injection h2 with h2
        rw [← h2]
        exact add_schema_preserves_unique hr2 hu
  | aat, .list inner, r, h, hu => by
      unfold spec_type_to_field_type at h
      obtain ⟨r1, hr1, h2⟩ := bindOk h
      injection h2 with h2
      rw [← h2]
      exact spec_type_preserves_unique aat inner r1 hr1 hu
  | aat, .optional inner, r, h, hu => by
      unfold spec_type_to_field_type at h
      obtain ⟨r1, hr1, h2⟩ := bindOk h
      injection h2 with h2
      rw [← h2]
      exact spec_type_preserves_unique aat inner r1 hr1 hu
  | aat, .stream inner, r, h, hu => by
      unfold spec_type_to_field_type at h
      obtain ⟨r1, hr1, h2⟩ := bindOk h
      injection h2 with h2
      rw [← h2]
      exact spec_type_preserves_unique aat inner r1 hr1 hu
  | aat, .tuple ts, r, h, hu => by
      unfold spec_type_to_field_type at h
      obtain ⟨r1, hr1, h2⟩ := bindOk h
      injection h2 with h2
      rw [← h2]
      exact spec_tuple_preserves_unique aat ts r1 hr1 hu
  | aat, .namedTuple m, r, h, hu => by cases h

theorem spec_tuple_preserves_unique :
    ∀ aat ts r, spec_tuple_field_types aat ts = .ok r → namesUnique aat →
      namesUnique r.1
  | aat, [], r, h, hu => by
      injection h with h
      rw [← h]
      exact hu
  | aat, t :: rest, r, h, hu => by
      unfold spec_tuple_field_types at h
      obtain ⟨r1, hr1, h2⟩ := bindOk h
      obtain ⟨r2, hr2, h3⟩ := bindOk h2
      injection h3 with h3
      rw [← h3]
      exact spec_tuple_preserves_unique r1.1 rest r2 hr2
        (spec_type_preserves_unique aat t r1 hr1 hu)

end

theorem header_value_preserves_unique {aat : AAT} {n : String}
    {hv : SpecHeaderValue} {r : AAT × Header}
    (h : spec_header_value_to_aat aat n hv = .ok r) (hu : namesUnique aat) :
    namesUnique r.1 := by
  cases hv with
  | literal lit =>
      injection h with h
      rw [← h]
      exact hu
  | typed pn t =>
      unfold spec_header_value_to_aat at h
      obtain ⟨r1, hr1, h2⟩ := bindOk h
      injection h2 with h2
      rw [← h2]
      show namesUnique r1.1
      exact spec_type_preserves_unique _ _ _ hr1 hu
  | pattern pat pn t =>
      unfold spec_header_value_to_aat at h
      obtain ⟨r1, hr1, h2⟩ := bindOk h
      injection h2 with h2
      rw [← h2]
      show namesUnique r1.1
      exact spec_type_preserves_unique _ _ _ hr1 hu

theorem convert_headers_preserves_unique :
    ∀ hs aat r, convert_headers aat hs = .ok r → namesUnique aat →
      namesUnique r.1 := by
  intro hs
  induction hs with
  | nil =>
      intro aat r h hu
      injection h with h
      rw [← h]
      exact hu
  | cons e rest ih =>
      intro aat r h hu
      obtain ⟨name, hv⟩ := e
      unfold convert_headers at h
      obtain ⟨r1, hr1, h2⟩ := bindOk h
      obtain ⟨r2, hr2, h3⟩ := bindOk h2
      injection h3 with h3
      rw [← h3]
      show namesUnique r2.1
      exact ih _ _ hr2 (header_value_preserves_unique hr1 hu)

theorem convert_path_preserves_unique :
    ∀ segs aat r, convert_path aat segs = .ok r → namesUnique aat →
      namesUnique r.1 := by
  intro segs
  induction segs with
  | nil =>
      intro aat r h hu
      injection h with h
      rw [← h]
      exact hu
  | cons seg rest ih =>
      intro aat r h hu
      cases seg with
      | literal lit =>
          unfold convert_path at h
          obtain ⟨r1, hr1, h2⟩ := bindOk h
          injection h2 with h2
          rw [← h2]
          show namesUnique r1.1
          exact ih _ _ hr1 hu
      | typed name t =>
          unfold convert_path at h
          obtain ⟨u, hvu, h2⟩ := bindOk h
          obtain ⟨r1, hr1, h3⟩ := bindOk h2
          obtain ⟨r2, hr2, h4⟩ := bindOk h3
          injection h4 with h4
          rw [← h4]
          show namesUnique r2.1
          exact ih _ _ hr2 (spec_type_preserves_unique _ _ _ hr1 hu)

theorem convert_opt_type_preserves_unique {aat : AAT} {ot : Option SpecType}
    {r : AAT × Option FieldType}
    (h : convert_opt_type aat ot = .ok r) (hu : namesUnique aat) :
    namesUnique r.1 := by
  cases ot with
  | none =>
      injection h with h
      rw [← h]
      exact hu
  | some t =>
      unfold convert_opt_type at h
      obtain ⟨r1, hr1, h2⟩ := bindOk h
      injection h2 with h2
      rw [← h2]
      show namesUnique r1.1
      exact spec_type_preserves_unique _ _ _ hr1 hu

theorem convert_endpoints_preserves_unique :
    ∀ es aat r, convert_endpoints aat es = .ok r → namesUnique aat →
      namesUnique r.1 := by
  intro es
  induction es with
  | nil =>
      intro aat r h hu
      injection h with h
      rw [← h]
      exact hu
  | cons e rest ih =>
      intro aat r h hu
      unfold convert_endpoints at h
      obtain ⟨p1, hp1, h⟩ := bindOk h
      obtain ⟨p2, hp2, h⟩ := bindOk h
      obtain ⟨p3, hp3, h⟩ := bindOk h
      obtain ⟨p4, hp4, h⟩ := bindOk h
      obtain ⟨p5, hp5, h⟩ := bindOk h
      obtain ⟨p6, hp6, h⟩ := bindOk h
      injection h with h
      rw [← h]
      show namesUnique p6.1
      exact ih _ _ hp6
        (convert_headers_preserves_unique _ _ _ hp5
          (spec_type_preserves_unique _ _ _ hp4
            (convert_opt_type_preserves_unique hp3
              (convert_opt_type_preserves_unique hp2
                (convert_path_preserves_unique _ _ _ hp1 hu)))))

theorem convert_services_preserves_unique :
    ∀ ss aat r, convert_services aat ss = .ok r → namesUnique aat →
      namesUnique r.1 := by
  intro ss
  induction ss with
  | nil =>
      intro aat r h hu
      injection h with h
      rw [← h]
      exact hu
  | cons s rest ih =>
      intro aat r h hu
      unfold convert_services at h
      obtain ⟨p1, hp1, h⟩ := bindOk h
      obtain ⟨p2, hp2, h⟩ := bindOk h
      obtain ⟨p3, hp3, h⟩ := bindOk h
      injection h with h
      rw [← h]
      show namesUnique p3.1
      exact ih _ _ hp3
        (convert_endpoints_preserves_unique _ _ _ hp2
          (convert_headers_preserves_unique _ _ _ hp1 hu))

theorem import_preserves_unique {aat aat' : AAT} {sp : Spec}
    (h : import_from_spec aat sp = .ok aat') (hu : namesUnique aat) :
    namesUnique aat' := by
  unfold import_from_spec at h
  obtain ⟨rh, hrh, h2⟩ := bindOk h
  obtain ⟨rs, hrs, h3⟩ := bindOk h2
  injection h3 with h3
  rw [← h3]
  have h1 : namesUnique { rh.1 with headers := rh.1.headers ++ rh.2 } :=
    convert_headers_preserves_unique _ _ _ hrh hu
  have h2u := convert_services_preserves_unique _ _ _ hrs h1
  exact h2u

theorem sort_preserves_unique {aat : AAT} (hu : namesUnique aat) :
    namesUnique aat.sort := by
  have hp : (List.insertionSort
      (fun a b => strLe (get_type_name a) (get_type_name b) = true) aat.types).Perm
      aat.types := List.perm_insertionSort _ _
  exact ((hp.map get_type_name).nodup_iff).mpr hu

theorem from_spec_unique {sp : Spec} {aat : AAT}
    (h : AAT.from_spec sp = .ok aat) : namesUnique aat := by
  unfold AAT.from_spec at h
  obtain ⟨a1, ha1, h2⟩ := bindOk h
  injection h2 with h2
  rw [← h2]
  exact sort_preserves_unique (import_preserves_unique ha1 (by simp [namesUnique, AAT.new]))

/-- The AATs reachable by the type-adding construction operations. -/
inductive Built : AAT → Prop where
  | new : Built AAT.new
  | add {aat nt aat'} : Built aat →
      add_type_with_dedup_check aat nt = .ok aat' → Built aat'
  | append {aat s n aat'} : Built aat →
      append_types_from_schema aat s n = .ok aat' → Built aat'
  | imp {aat sp aat'} : Built aat →
      import_from_spec aat sp = .ok aat' → Built aat'
  | ofSpec {sp aat'} : AAT.from_spec sp = .ok aat' → Built aat'

/-- C4: starting from the empty AAT, any sequence of successful type-adding
operations (`add_type_with_dedup_check`, `append_types_from_schema`,
`import_from_spec`, `AAT.from_spec`) yields a types list with pairwise
distinct names; and adding a same-named structurally different type to any
such AAT fails with the collision error instead of breaking uniqueness. -/
theorem C4_name_uniqueness :
    (∀ aat, Built aat → (aat.types.map get_type_name).Nodup)
    ∧ (∀ aat nt et, Built aat →
        aat.types.find? (fun t => get_type_name t = get_type_name nt) = some et →
        types_are_structurally_equal et nt = false →
        add_type_with_dedup_check aat nt =
          .error ("Type name collision: a type named '" ++ get_type_name nt
            ++ "' already exists with a different structure")) := by
  have hb : ∀ aat, Built aat → namesUnique aat := by
    intro aat h
    induction h with
    | new => simp [namesUnique, AAT.new]
    | add _ hadd ih => exact add_type_preserves_unique hadd ih
    | append _ happ ih => exact append_types_preserves_unique happ ih
    | imp _ himp ih => exact import_preserves_unique himp ih
    | ofSpec h => exact from_spec_unique h
  exact ⟨hb, fun aat nt et _ hf he => add_type_clash hf he⟩

def c4_objA : NamedType := .object { name := "A", fields := [] }

def c4_enumA : NamedType := .enum { name := "A", variants := [] }

def c4_aat : AAT := { types := [c4_objA], services := [], headers := [],
                      type_names := ["A"] }

/-- Witness for C4: an AAT built by one insertion has distinct names, and
adding an enum under the already-used name A fails with the collision error. -/
theorem C4_witness :
    (c4_aat.types.map get_type_name).Nodup
    ∧ add_type_with_dedup_check c4_aat c4_enumA =
      .error ("Type name collision: a type named '" ++ get_type_name c4_enumA
        ++ "' already exists with a different structure") := by
  have hbuilt : Built c4_aat := @Built.add AAT.new c4_objA c4_aat Built.new rfl
  exact ⟨C4_name_uniqueness.1 c4_aat hbuilt,
         C4_name_uniqueness.2 c4_aat c4_enumA c4_objA hbuilt rfl rfl⟩

/-! ## The string order used by `AAT.sort` is a total preorder -/

theorem lexLt_irrefl : ∀ as : List Char, lexLt as as = false
  | [] => rfl
  | a :: as => by simp [lexLt, lexLt_irrefl as]

theorem lexLt_trans : ∀ as bs cs : List Char,
    lexLt as bs = true → lexLt bs cs = true → lexLt as cs = true
  | [], [], _, h, _ => by cases h
  | [], _ :: _, [], _, h => by cases h
  | [], _ :: _, _ :: _, _, _ => rfl
  | _ :: _, [], _, h, _ => by cases h
  | _ :: _, _ :: _, [], _, h => by cases h
  | a :: as, b :: bs, c :: cs, h1, h2 => by
      simp only [lexLt] at h1 h2 ⊢
      split at h1
      · rename_i hab
        split at h2
        · rename_i hbc
          simp [lt_trans hab hbc]
        · split at h2
          · cases h2
          · rename_i hbc hcb
            have hbceq : b = c := le_antisymm (not_lt.mp hcb) (not_lt.mp hbc)
            subst hbceq
            simp [hab]
      · rename_i hab
        split at h1
        · cases h1
        · rename_i hba
          have habeq : a = b := le_antisymm (not_lt.mp hba) (not_lt.mp hab)
          subst habeq
          split at h2
          · rename_i hac
            simp [hac]
          · split at h2
            · cases h2
            · rename_i hac hca
              simp only [if_neg hac, if_neg hca]
              exact lexLt_trans as bs cs h1 h2

theorem lexLt_connex : ∀ as bs : List Char,
    lexLt as bs = false → lexLt bs as = false → as = bs
  | [], [], _, _ => rfl
  | [], _ :: _, h1, _ => by cases h1
  | _ :: _, [], _, h2 => by cases h2
  | a :: as, b :: bs, h1, h2 => by
      simp only [lexLt] at h1 h2
      split at h1
      · cases h1
      · rename_i hab
        split at h1
        · rename_i hba
          split at h2
          · cases h2
          · rename_i hba2
            exact absurd hba hba2
        · rename_i hba
          have habeq : a = b := le_antisymm (not_lt.mp hba) (not_lt.mp hab)
          subst habeq
          simp only [lt_self_iff_false, if_false] at h2
          rw [lexLt_connex as bs h1 h2]

theorem strLe_total (s t : String) : strLe s t = true ∨ strLe t s = true := by
  cases h1 : lexLt t.data s.data with
  | false => exact .inl (by simp [strLe, strLt, h1])
  | true =>
      cases h2 : lexLt s.data t.data with
      | false => exact .inr (by simp [strLe, strLt, h2])
      | true =>
          have h3 := lexLt_trans _ _ _ h1 h2
          rw [lexLt_irrefl] at h3
          cases h3

theorem strLe_trans {a b c : String} (h1 : strLe a b = true) (h2 : strLe b c = true) :
    strLe a c = true := by
  simp only [strLe, strLt, Bool.not_eq_true'] at h1 h2 ⊢
  cases hca : lexLt c.data a.data with
  | false => rfl
  | true =>
      exfalso
      cases hbc : lexLt b.data c.data with
      | true =>
          have h3 := lexLt_trans _ _ _ hbc hca
          rw [h3] at h1
          cases h1
      | false =>
          have hb : b.data = c.data := lexLt_connex _ _ hbc h2
          rw [← hb] at hca
          rw [hca] at h1
          cases h1

/-- C7: a successful build returns an AAT whose type list is sorted by type
name, whose service list is sorted by service name, and whose per-service
endpoint lists are sorted by endpoint name; and building the same Spec again
returns the identical AAT. -/
theorem C7_sort_determinism :
    ∀ sp aat, AAT.from_spec sp = .ok aat →
      List.Pairwise (fun a b => strLe (get_type_name a) (get_type_name b) = true)
        aat.types
      ∧ List.Pairwise (fun a b : Service => strLe a.name b.name = true) aat.services
      ∧ (∀ s ∈ aat.services,
          List.Pairwise (fun a b : Endpoint => strLe a.name b.name = true) s.endpoints)
      ∧ (∀ aat2, AAT.from_spec sp = .ok aat2 → aat2 = aat) := by
  intro sp aat h
  have hdet : ∀ aat2, AAT.from_spec sp = .ok aat2 → aat2 = aat := by
    intro aat2 h2
    rw [h] at h2
    injection h2 with h2
    exact h2.symm
  unfold AAT.from_spec at h
  obtain ⟨a1, ha1, h2⟩ := bindOk h
  injection h2 with h2
  subst h2
  haveI : IsTotal NamedType
      (fun a b => strLe (get_type_name a) (get_type_name b) = true) :=
    ⟨fun a b => strLe_total _ _⟩
  haveI : IsTrans NamedType
      (fun a b => strLe (get_type_name a) (get_type_name b) = true) :=
    ⟨fun _ _ _ => strLe_trans⟩
  haveI : IsTotal Service (fun a b : Service => strLe a.name b.name = true) :=
    ⟨fun a b => strLe_total _ _⟩
  haveI : IsTrans Service (fun a b : Service => strLe a.name b.name = true) :=
    ⟨fun _ _ _ => strLe_trans⟩
  haveI : IsTotal Endpoint (fun a b : Endpoint => strLe a.name b.name = true) :=
    ⟨fun a b => strLe_total _ _⟩
  haveI : IsTrans Endpoint (fun a b : Endpoint => strLe a.name b.name = true) :=
    ⟨fun _ _ _ => strLe_trans⟩
  refine ⟨List.sorted_insertionSort _ _, ?_, ?_, hdet⟩
  · show List.Pairwise _ ((List.insertionSort _ a1.services).map _)
    exact List.Pairwise.map _ (fun a b hab => hab) (List.sorted_insertionSort _ _)
  · intro s hs
    obtain ⟨s0, hs0, rfl⟩ := List.mem_map.mp hs
    exact List.sorted_insertionSort _ _

/-- A spec with two services authored in reverse alphabetical order. -/
def c7_spec : Spec :=
  { name := "w", headers := [],
    services := [{ name := "b", headers := [], endpoints := [] },
                 { name := "a", headers := [], endpoints := [] }] }

def c7_aat : AAT :=
  { types := [], headers := [], type_names := [],
    services := [{ name := "a", endpoints := [], headers := [] },
                 { name := "b", endpoints := [], headers := [] }] }

/-- Witness for C7: building the reverse-authored two-service spec returns
the alphabetically sorted AAT, with all three sortedness facts instantiated. -/
theorem C7_witness :
    AAT.from_spec c7_spec = .ok c7_aat
    ∧ List.Pairwise (fun a b => strLe (get_type_name a) (get_type_name b) = true)
        c7_aat.types
    ∧ List.Pairwise (fun a b : Service => strLe a.name b.name = true) c7_aat.services
    ∧ (∀ s ∈ c7_aat.services,
        List.Pairwise (fun a b : Endpoint => strLe a.name b.name = true) s.endpoints) := by
  have h := C7_sort_determinism c7_spec c7_aat rfl
  exact ⟨rfl, h.1, h.2.1, h.2.2.1⟩

/-! ## The claimed characterization of `validate`, spelled from the spec's
words: every Reference occurring anywhere resolves to a present type name.
These definitions follow the claim text, to be compared with the code's
`validate_references`. -/

mutual

def ftRefsResolve : FieldType → List String → Bool
  | .reference n, valid => valid.contains n
  | .optional t, valid => ftRefsResolve t valid
  | .list t, valid => ftRefsResolve t valid
  | .map t, valid => ftRefsResolve t valid
  | .stream t, valid => ftRefsResolve t valid
  | .intersection ts, valid => ftRefsResolveList ts valid
  | .tuple ts, valid => ftRefsResolveList ts valid
  | .primitive _, _ => true
  | .literal _, _ => true
  | .any, _ => true

def ftRefsResolveList : List FieldType → List String → Bool
  | [], _ => true
  | t :: ts, valid => ftRefsResolve t valid && ftRefsResolveList ts valid

end

def pathSegRefsResolve (valid : List String) : PathSegment → Bool
  | .literal _ => true
  | .parameter _ t => ftRefsResolve t valid

def endpointRefsResolve (valid : List String) (e : Endpoint) : Bool :=
  e.path.all (pathSegRefsResolve valid)
  && (match e.query with | some t => ftRefsResolve t valid | none => true)
  && (match e.body with | some t => ftRefsResolve t valid | none => true)
  && ftRefsResolve e.response valid

def fieldsRefsResolve (valid : List String) (fs : List Field) : Bool :=
  fs.all (fun f => ftRefsResolve f.type valid)

def namedTypeRefsResolve (valid : List String) : NamedType → Bool
  | .object o => fieldsRefsResolve valid o.fields
  | .union u => u.variants.all (fun v =>
      match v.mode with
      | .object o => fieldsRefsResolve valid o.fields
      | .literal _ => true)
  | .enum _ => true

/-- The spec's reference-closure condition on a whole AAT. -/
def specRefsResolve (aat : AAT) : Bool :=
  (aat.services.all (fun s => s.endpoints.all
      (endpointRefsResolve (aat.types.map get_type_name))))
  && aat.types.all (namedTypeRefsResolve (aat.types.map get_type_name))

/-- Whether one path segment passes the stringifiability check of the code. -/
def pathSegStringifiable (types : List NamedType) (en : String) : PathSegment → Bool
  | .literal _ => true
  | .parameter n t =>
      match validate_path_parameter_is_stringifiable t en n types with
      | .ok _ => true
      | .error _ => false

/-- Every path parameter of every endpoint passes the stringifiability check. -/
def pathParamsStringifiable (aat : AAT) : Bool :=
  aat.services.all (fun s => s.endpoints.all (fun e =>
    e.path.all (pathSegStringifiable aat.types e.name)))

theorem bind_unit_ok_iff {a b : Except String Unit} :
    (a >>= fun _ => b) = .ok () ↔ (a = .ok () ∧ b = .ok ()) := by
  cases a with
  | ok u => cases u; simp [Bind.bind, Except.bind]
  | error e => simp [Bind.bind, Except.bind]

theorem withErr_ok_iff {f : String → String} {x : Except String Unit} :
    withErr f x = .ok () ↔ x = .ok () := by
  cases x with
  | ok u => cases u; simp [withErr]
  | error e => simp [withErr]

theorem bindErrCases {α : Type} {x : Except String α} {f : α → Except String Unit}
    {e : String} (h : (x >>= f) = .error e) :
    x = .error e ∨ ∃ a, x = .ok a ∧ f a = .error e := by
  cases x with
  | ok a => exact .inr ⟨a, rfl, h⟩
  | error e0 =>
      left
      injection h with h
      rw [h]

mutual

theorem vftr_ok_iff : ∀ (ft : FieldType) (valid : List String),
    validate_field_type_references ft valid = .ok () ↔ ftRefsResolve ft valid = true
  | .reference n, valid => by
      simp only [validate_field_type_references, ftRefsResolve]
      cases h : valid.contains n <;> simp [h]
  | .optional t, valid => vftr_ok_iff t valid
  | .list t, valid => vftr_ok_iff t valid
  | .map t, valid => vftr_ok_iff t valid
  | .stream t, valid => vftr_ok_iff t valid
  | .intersection ts, valid => vftrl_ok_iff ts valid
  | .tuple ts, valid => vftrl_ok_iff ts valid
  | .primitive p, valid => by simp [validate_field_type_references, ftRefsResolve]
  | .literal l, valid => by simp [validate_field_type_references, ftRefsResolve]
  | .any, valid => by simp [validate_field_type_references, ftRefsResolve]

theorem vftrl_ok_iff : ∀ (ts : List FieldType) (valid : List String),
    validate_field_type_references_list ts valid = .ok () ↔
      ftRefsResolveList ts valid = true
  | [], valid => by
      simp [validate_field_type_references_list, ftRefsResolveList]
  | t :: ts, valid => by
      simp only [validate_field_type_references_list, ftRefsResolveList]
      rw [bind_unit_ok_iff, vftr_ok_iff t valid, vftrl_ok_iff ts valid,
        Bool.and_eq_true]

end

mutual

theorem vftr_err_form : ∀ (ft : FieldType) (valid : List String) (msg : String),
    validate_field_type_references ft valid = .error msg →
    ∃ n, valid.contains n = false
      ∧ msg = "Reference to undefined type '" ++ n ++ "'"
  | .reference n, valid, msg => by
      intro h
      simp only [validate_field_type_references] at h
      cases hc : valid.contains n <;> rw [hc] at h
      · injection h with h
        exact ⟨n, hc, h.symm⟩
      · cases h
  | .optional t, valid, msg => fun h => vftr_err_form t valid msg h
  | .list t, valid, msg => fun h => vftr_err_form t valid msg h
  | .map t, valid, msg => fun h => vftr_err_form t valid msg h
  | .stream t, valid, msg => fun h => vftr_err_form t valid msg h
  | .intersection ts, valid, msg => fun h => vftrl_err_form ts valid msg h
  | .tuple ts, valid, msg => fun h => vftrl_err_form ts valid msg h
  | .primitive p, valid, msg => fun h => by cases h
  | .literal l, valid, msg => fun h => by cases h
  | .any, valid, msg => fun h => by cases h

theorem vftrl_err_form : ∀ (ts : List FieldType) (valid : List String) (msg : String),
    validate_field_type_references_list ts valid = .error msg →
    ∃ n, valid.contains n = false
      ∧ msg = "Reference to undefined type '" ++ n ++ "'"
  | [], valid, msg => fun h => by cases h
  | t :: ts, valid, msg => fun h => by
      simp only [validate_field_type_references_list] at h
      rcases bindErrCases h with h1 | ⟨u, _, h2⟩
      · exact vftr_err_form t valid msg h1
      · exact vftrl_err_form ts valid msg h2

end

theorem vseg_ok_iff : ∀ (segs : List PathSegment) (en : String) (valid : List String)
    (types : List NamedType),
    validate_endpoint_path_segments en valid types segs = .ok () ↔
      (segs.all (pathSegRefsResolve valid) = true
        ∧ segs.all (pathSegStringifiable types en) = true)
  | [], en, valid, types => by
      simp [validate_endpoint_path_segments]
  | .literal l :: rest, en, valid, types => by
      simp only [validate_endpoint_path_segments, List.all_cons, pathSegRefsResolve,
        pathSegStringifiable, Bool.true_and]
      exact vseg_ok_iff rest en valid types
  | .parameter n t :: rest, en, valid, types => by
      simp only [validate_endpoint_path_segments, List.all_cons, pathSegRefsResolve,
        pathSegStringifiable]
      rw [bind_unit_ok_iff, bind_unit_ok_iff, withErr_ok_iff, vftr_ok_iff,
        vseg_ok_iff rest en valid types]
      cases hs : validate_path_parameter_is_stringifiable t en n types with
      | ok u =>
          cases u
          simp only [Bool.and_eq_true]
          tauto
      | error e =>
          simp only [Bool.and_eq_true]
          constructor
          · rintro ⟨-, h, -⟩
            cases h
          · rintro ⟨-, h, -⟩
            cases h

theorem vendpoint_ok_iff (valid : List String) (types : List NamedType)
    (e : Endpoint) :
    validate_endpoint valid types e = .ok () ↔
      (endpointRefsResolve valid e = true
        ∧ e.path.all (pathSegStringifiable types e.name) = true) := by
  unfold validate_endpoint endpointRefsResolve
  rw [bind_unit_ok_iff, vseg_ok_iff]
  cases e.query <;> cases e.body <;>
    (dsimp only
     simp only [bind_unit_ok_iff, withErr_ok_iff, vftr_ok_iff, Bool.and_eq_true,
       Bool.true_and]
     tauto)

theorem vendpoints_ok_iff : ∀ (es : List Endpoint) (valid : List String)
    (types : List NamedType),
    validate_endpoints valid types es = .ok () ↔
      es.all (fun e => endpointRefsResolve valid e
        && e.path.all (pathSegStringifiable types e.name)) = true
  | [], _, _ => by simp [validate_endpoints]
  | e :: rest, valid, types => by
      simp only [validate_endpoints, List.all_cons]
      rw [bind_unit_ok_iff, vendpoint_ok_iff, vendpoints_ok_iff rest valid types,
        Bool.and_eq_true, Bool.and_eq_true]

theorem vservices_ok_iff : ∀ (ss : List Service) (valid : List String)
    (types : List NamedType),
    validate_services valid types ss = .ok () ↔
      ss.all (fun s => s.endpoints.all (fun e => endpointRefsResolve valid e
        && e.path.all (pathSegStringifiable types e.name))) = true
  | [], _, _ => by simp [validate_services]
  | s :: rest, valid, types => by
      simp only [validate_services, List.all_cons]
      rw [bind_unit_ok_iff, vendpoints_ok_iff, vservices_ok_iff rest valid types,
        Bool.and_eq_true]

theorem vobjfields_ok_iff : ∀ (fs : List Field) (mkMsg : String → String → String)
    (valid : List String),
    validate_object_fields mkMsg fs valid = .ok () ↔
      fieldsRefsResolve valid fs = true
  | [], _, _ => by simp [validate_object_fields, fieldsRefsResolve]
  | f :: rest, mkMsg, valid => by
      simp only [validate_object_fields, fieldsRefsResolve, List.all_cons]
      rw [bind_unit_ok_iff, withErr_ok_iff, vftr_ok_iff,
        vobjfields_ok_iff rest mkMsg valid, Bool.and_eq_true]
      simp [fieldsRefsResolve]

theorem vunion_ok_iff : ∀ (vs : List UnionTypeVariant) (un : String)
    (valid : List String),
    validate_union_variants un valid vs = .ok () ↔
      vs.all (fun v => match v.mode with
        | .object o => fieldsRefsResolve valid o.fields
        | .literal _ => true) = true
  | [], _, _ => by simp [validate_union_variants]
  | v :: rest, un, valid => by
      simp only [validate_union_variants, List.all_cons]
      cases hm : v.mode with
      | object o =>
          rw [bind_unit_ok_iff, vobjfields_ok_iff, vunion_ok_iff rest un valid,
            Bool.and_eq_true]
      | literal l =>
          rw [bind_unit_ok_iff, vunion_ok_iff rest un valid, Bool.and_eq_true]
          simp

theorem vnamed_ok_iff : ∀ (nts : List NamedType) (valid : List String),
    validate_named_types valid nts = .ok () ↔
      nts.all (namedTypeRefsResolve valid) = true
  | [], _ => by simp [validate_named_types]
  | nt :: rest, valid => by
      simp only [validate_named_types, List.all_cons]
      cases nt with
      | object o =>
          rw [bind_unit_ok_iff, vobjfields_ok_iff, vnamed_ok_iff rest valid,
            Bool.and_eq_true]
          simp [namedTypeRefsResolve]
      | union u =>
          rw [bind_unit_ok_iff, vunion_ok_iff, vnamed_ok_iff rest valid,
            Bool.and_eq_true]
          simp [namedTypeRefsResolve]
      | enum e =>
          rw [bind_unit_ok_iff, vnamed_ok_iff rest valid, Bool.and_eq_true]
          simp [namedTypeRefsResolve]

theorem validate_references_iff (services : List Service) (types : List NamedType) :
    validate_references services types = .ok () ↔
      (services.all (fun s => s.endpoints.all (fun e =>
          endpointRefsResolve (types.map get_type_name) e
          && e.path.all (pathSegStringifiable types e.name))) = true
        ∧ types.all (namedTypeRefsResolve (types.map get_type_name)) = true) := by
  unfold validate_references
  dsimp only
  rw [bind_unit_ok_iff, vservices_ok_iff, vnamed_ok_iff]

/-- A spec whose single path parameter carries a titled object schema: it
imports as a `.reference "X"` path parameter with the object registered. -/
def c1_spec : Spec :=
  { name := "w", headers := [],
    services := [{ name := "s", headers := [],
                   endpoints := [{ name := "e", method := .get,
                                   path := [.typed "x" (.schema (Json.obj
                                     [("title", Json.str "X"),
                                      ("type", Json.str "object"),
                                      ("properties", Json.obj [])]))],
                                   query := none, body := none, response := .void,
                                   upgrade := none, headers := [] }] }] }

def c1_aat : AAT :=
  { types := [.object { name := "X", fields := [] }],
    type_names := ["X"],
    headers := [],
    services := [{ name := "s", headers := [],
                   endpoints := [{ name := "e", method := .get,
                                   path := [.parameter "x" (.reference "X")],
                                   query := none, body := none, response := .any,
                                   upgrade := none, headers := [] }] }] }

/-- C1 counterexample: `c1_spec` builds successfully into `c1_aat`, every
reference of `c1_aat` resolves (the only one, `X`, is present in the type
list), yet `validate` rejects it — the path-parameter stringifiability check
also gates validation, so "validate succeeds iff every reference resolves"
is false for build-produced AATs. -/
theorem C1_counterexample :
    AAT.from_spec c1_spec = .ok c1_aat
    ∧ specRefsResolve c1_aat = true
    ∧ AAT.validate c1_aat =
      .error ("Path parameter 'x' in endpoint 'e' cannot be an object type 'X'. Path parameters must be primitives or string enums.") :=
  ⟨rfl, rfl, rfl⟩

/-- C1 (amended): for every AAT — in particular each one `AAT.from_spec`
returns — `validate` succeeds iff every Reference occurring in any endpoint's
path parameters, query, body, or response, or in any field of any NamedType
(including union-variant object fields), recursing through wrappers, names a
present type AND every path parameter passes the stringifiability check; and
an unresolved reference is reported with a message naming the missing type. -/
theorem C1_validate_characterization :
    (∀ aat : AAT, AAT.validate aat = .ok () ↔
      (specRefsResolve aat = true ∧ pathParamsStringifiable aat = true))
    ∧ (∀ (ft : FieldType) (valid : List String) (msg : String),
        validate_field_type_references ft valid = .error msg →
        ∃ n, valid.contains n = false
          ∧ msg = "Reference to undefined type '" ++ n ++ "'") := by
  constructor
  · intro aat
    unfold AAT.validate specRefsResolve pathParamsStringifiable
    rw [validate_references_iff]
    simp only [List.all_eq_true, Bool.and_eq_true]
    constructor
    · rintro ⟨h1, h2⟩
      exact ⟨⟨fun s hs e he => (h1 s hs e he).1, h2⟩,
             fun s hs e he => (h1 s hs e he).2⟩
    · rintro ⟨⟨h1, h2⟩, h3⟩
      exact ⟨fun s hs e he => ⟨h1 s hs e he, h3 s hs e he⟩, h2⟩
  · exact vftr_err_form

/-- Witness for C1: the empty AAT validates, and both characterizing
conditions hold of it. -/
theorem C1_witness :
    AAT.validate AAT.new = .ok () ∧ specRefsResolve AAT.new = true
      ∧ pathParamsStringifiable AAT.new = true := by
  have h := (C1_validate_characterization.1 AAT.new).mpr ⟨rfl, rfl⟩
  have h2 := (C1_validate_characterization.1 AAT.new).mp h
  exact ⟨h, h2.1, h2.2⟩

end Damascus
